import Mathlib

/-!
Verification of the logo-analyzer structural-analysis core.

This file is a shallow embedding, in Lean 4, of the deterministic pipeline in
`src/lib` (color engine, path/paint registry, containment graph, white-region
classifier, shape clustering, gradient classifier, version/palette engine),
together with theorems settling the frozen specification claims.

Modelling conventions:
* JS numbers are modelled as `ℚ` (exact rational arithmetic).  The sRGB→Lab
  conversion (`rgbToLab` in `color-utils.js`) is a fixed transcendental map;
  none of the claims settled here depend on its concrete values, so it is
  carried as an explicit parameter `labOf : RGBA → Lab` of every definition
  that uses it (in the source it is a closed function; every theorem below is
  proved for an arbitrary `labOf`, hence in particular for the concrete map
  used by the source).
* `deltaE` in the source is `Math.sqrt` of a sum of squares and all the code
  does with it is compare it against other `deltaE` values or against the
  nonnegative thresholds 12 / `Infinity`.  Since `sqrt` is strictly monotone
  on nonnegative reals, every such comparison is embedded as the same
  comparison on squared distances (`deltaESq`, thresholds squared).
* JS `Map` objects (insertion-ordered) are embedded as association lists
  `List (key × value)`, with `Map.set` preserving the position of an
  existing key and appending a fresh one.
* JS objects built by `extractPaint` carry no `id` field; the deduplicated
  paint table assigns `id`s to *copies* (`{ ...p, id }`).  The embedding keeps
  this distinction: `Paint.id : Option String`, `none` on freshly extracted
  paints, `some _` on table entries.
-/

/-- An sRGB color with alpha, as produced by `parseColor` in `color-utils.js`.
Channels are JS numbers, embedded as rationals. -/
structure RGBA where
  r : ℚ
  g : ℚ
  b : ℚ
  a : ℚ
deriving DecidableEq, Repr

/-- A CIE-Lab triple, the output type of `rgbToLab`. -/
structure Lab where
  L : ℚ
  a : ℚ
  b : ℚ
deriving DecidableEq, Repr

/-- Squared CIE76 ΔE (`deltaE` in `color-utils.js` is the square root of
this; all comparisons of `deltaE` values in the source are embedded as the
same comparisons of `deltaESq` values, which is equivalent because `sqrt` is
strictly monotone on nonnegatives). -/
def deltaESq (x y : Lab) : ℚ :=
  (x.L - y.L) ^ 2 + (x.a - y.a) ^ 2 + (x.b - y.b) ^ 2

/-- `isWhiteLike` from `color-utils.js`: `L > 92` and chroma `< 8`.  The
chroma test `sqrt(a²+b²) < 8` is embedded as `a²+b² < 64`. -/
def isWhiteLike (labOf : RGBA → Lab) (c : RGBA) : Bool :=
  let lab := labOf c
  decide (92 < lab.L) && decide (lab.a ^ 2 + lab.b ^ 2 < 64)

/-- JS `Math.round`: round half toward positive infinity, i.e. the floor of
`q + 1/2` (computed as floor division of numerator by denominator, which
is the floor since the denominator is positive). -/
def jsRound (q : ℚ) : ℤ :=
  (q + 1 / 2).num.fdiv ((q + 1 / 2).den : ℤ)

/-- Clamp a channel to `0..255` after rounding, as in `rgbToHex`. -/
def clampByte (q : ℚ) : ℕ :=
  (max 0 (min 255 (jsRound q))).toNat

/-- One lowercase hexadecimal digit. -/
def hexDigit (n : ℕ) : Char :=
  if n < 10 then Char.ofNat (48 + n) else Char.ofNat (87 + n)

/-- Two-digit lowercase hexadecimal rendering of a byte
(`v.toString(16).padStart(2, "0")` for `v ∈ 0..255`). -/
def byteToHex (n : ℕ) : String :=
  String.mk [hexDigit (n / 16), hexDigit (n % 16)]

/-- `rgbToHex` from `color-utils.js`. -/
def rgbToHex (c : RGBA) : String :=
  "#" ++ byteToHex (clampByte c.r) ++ byteToHex (clampByte c.g)
      ++ byteToHex (clampByte c.b)

/-- The `type` tag of a paint object produced by `extractPaint` in
`svg-registry.js` (`"none" | "solid" | "linear" | "radial" | "complex_mesh"`). -/
inductive PaintType where
  | none
  | solid
  | linear
  | radial
  | complexMesh
deriving DecidableEq, Repr

/-- The JS string value of a paint type tag. -/
def PaintType.toTag : PaintType → String
  | PaintType.none => "none"
  | PaintType.solid => "solid"
  | PaintType.linear => "linear"
  | PaintType.radial => "radial"
  | PaintType.complexMesh => "complex_mesh"

/-- A gradient stop as built by `resolveGradientStops`:
`{ offset, color, opacity, rgb }`. -/
structure Stop where
  offset : String
  color : String
  opacity : ℚ
  rgb : RGBA
deriving DecidableEq, Repr

/-- A paint object.  `lab`/`hex` are set only on solid paints (extracted via
`rgbToLab`/`rgbToHex`), `stops` only on gradients, and `id` only on entries of
the deduplicated paint table (`deduplicatePaints` assigns ids to copies; the
objects stored on path entries never carry one). -/
structure Paint where
  type : PaintType
  raw : String
  rgba : RGBA
  lab : Option Lab := Option.none
  hex : Option String := Option.none
  stops : List Stop := []
  id : Option String := Option.none
deriving DecidableEq, Repr

/-- Executable model of JS `String.prototype.startsWith` (a prefix test on
the character sequence). -/
def strStartsWith (s pre : String) : Bool :=
  pre.data.isPrefixOf s.data

/-- The result object of `classifyGradient` (`gradient-classifier` source,
`src/unnamed/part_000`): `{ type, confidence, canRecreateVector, stopCount?,
note? }`. -/
structure GradientClass where
  type : String
  confidence : ℚ
  canRecreateVector : Bool
  stopCount : Option ℕ := Option.none
  note : Option String := Option.none
deriving DecidableEq, Repr

/-- `classifyGradient(paint)` from `src/unnamed/part_000`, rule for rule.  The
JS falsy test `!paint` is the `Option.none` case. -/
def classifyGradient (paint : Option Paint) : GradientClass :=
  match paint with
  | Option.none => { type := "not_gradient", confidence := 1, canRecreateVector := true }
  | some p =>
    if p.type = PaintType.solid ∨ p.type = PaintType.none then
      { type := "not_gradient", confidence := 1, canRecreateVector := true }
    else if p.type = PaintType.complexMesh then
      { type := "complex_mesh", confidence := 9 / 10, canRecreateVector := false }
    else
      let stops := p.stops
      if stops.length = 0 then
        { type := "unknown", confidence := 1 / 2, canRecreateVector := false }
      else if stops.length ≤ 5 then
        if stops.any (fun s => strStartsWith s.color "url(") then
          { type := "textured", confidence := 4 / 5, canRecreateVector := false }
        else if p.type = PaintType.linear then
          { type := "simple_linear", confidence := 95 / 100, canRecreateVector := true,
            stopCount := some stops.length }
        else if p.type = PaintType.radial then
          { type := "simple_radial", confidence := 95 / 100, canRecreateVector := true,
            stopCount := some stops.length }
        else
          { type := "textured", confidence := 1 / 2, canRecreateVector := false }
      else if p.type = PaintType.linear then
        { type := "simple_linear", confidence := 7 / 10, canRecreateVector := true,
          stopCount := some stops.length,
          note := some "Many stops - may be approximating a complex gradient" }
      else if p.type = PaintType.radial then
        { type := "simple_radial", confidence := 7 / 10, canRecreateVector := true,
          stopCount := some stops.length,
          note := some "Many stops - may be approximating a complex gradient" }
      else
        { type := "textured", confidence := 1 / 2, canRecreateVector := false }

/-- Claim C9: `classifyGradient` returns `simple_linear` at confidence 0.95,
recreatable, with `stopCount = 3`, on every linear paint with exactly 3 stops
none of which references a pattern/gradient; returns the same type at
confidence 0.7 with an explanatory note for linear/radial paints with more
than 5 stops; and returns `unknown` at confidence 0.5, not recreatable, for
every linear/radial paint with zero stops. -/
theorem c9_classifyGradient (p : Paint) :
    (p.type = PaintType.linear → p.stops.length = 3 →
      (∀ s ∈ p.stops, ¬ strStartsWith s.color "url(") →
      classifyGradient (some p) =
        { type := "simple_linear", confidence := 95 / 100, canRecreateVector := true,
          stopCount := some 3 }) ∧
    ((p.type = PaintType.linear ∨ p.type = PaintType.radial) → 5 < p.stops.length →
      (classifyGradient (some p)).type =
          (if p.type = PaintType.linear then "simple_linear" else "simple_radial") ∧
        (classifyGradient (some p)).confidence = 7 / 10 ∧
        (classifyGradient (some p)).note.isSome = true) ∧
    ((p.type = PaintType.linear ∨ p.type = PaintType.radial) → p.stops.length = 0 →
      classifyGradient (some p) =
        { type := "unknown", confidence := 1 / 2, canRecreateVector := false }) := by
  refine ⟨?_, ?_, ?_⟩
  · intro htype hlen hnoref
    have hany : p.stops.any (fun s => strStartsWith s.color "url(") = false := by
      rw [List.any_eq_false]
      intro s hs
      simpa using hnoref s hs
    simp [classifyGradient, htype, hlen, hany]
  · intro htype hlen
    have hne : p.stops.length ≠ 0 := by omega
    have hgt : ¬ p.stops.length ≤ 5 := by omega
    rcases htype with h | h
    · simp [classifyGradient, h, hne, hgt]
    · have hnl : p.type ≠ PaintType.linear := by rw [h]; intro hc; cases hc
      have hns : p.type ≠ PaintType.solid := by rw [h]; intro hc; cases hc
      have hnn : p.type ≠ PaintType.none := by rw [h]; intro hc; cases hc
      have hnm : p.type ≠ PaintType.complexMesh := by rw [h]; intro hc; cases hc
      simp [classifyGradient, h, hne, hgt, hnl, hns, hnn, hnm]
  · intro htype hlen
    rcases htype with h | h <;>
      simp [classifyGradient, h, hlen]

/-- Witness for C9: the three branches evaluated at concrete paints — a
3-stop linear gradient, a 6-stop radial gradient, and a 0-stop linear
gradient. -/
theorem c9_classifyGradient_witness :
    classifyGradient (some
        { type := PaintType.linear, raw := "url(#g1)", rgba := ⟨0, 0, 0, 1⟩,
          stops := [⟨"0%", "#ff0000", 1, ⟨255, 0, 0, 1⟩⟩,
                    ⟨"50%", "#00ff00", 1, ⟨0, 255, 0, 1⟩⟩,
                    ⟨"100%", "#0000ff", 1, ⟨0, 0, 255, 1⟩⟩] }) =
      { type := "simple_linear", confidence := 95 / 100, canRecreateVector := true,
        stopCount := some 3 } ∧
    (classifyGradient (some
        { type := PaintType.radial, raw := "url(#g2)", rgba := ⟨0, 0, 0, 1⟩,
          stops := List.replicate 6 ⟨"0%", "#102030", 1, ⟨16, 32, 48, 1⟩⟩ })).confidence
      = 7 / 10 ∧
    classifyGradient (some
        { type := PaintType.linear, raw := "url(#g3)", rgba := ⟨0, 0, 0, 1⟩,
          stops := [] }) =
      { type := "unknown", confidence := 1 / 2, canRecreateVector := false } := by
  refine ⟨?_, ?_, ?_⟩
  · exact (c9_classifyGradient _).1 rfl rfl (by decide)
  · exact ((c9_classifyGradient _).2.1 (Or.inr rfl) (by decide)).2.1
  · exact (c9_classifyGradient _).2.2 (Or.inl rfl) rfl

/-- A default paint value (used only where the source indexes a list that is
invariantly nonempty, e.g. `cluster[0]`). -/
def defaultPaint : Paint :=
  { type := PaintType.none, raw := "none", rgba := ⟨0, 0, 0, 0⟩ }

instance : Inhabited Paint := ⟨defaultPaint⟩

/-- The stop part of a gradient paint key:
`stops.map(s => s.color + "@" + s.offset).join(",")`. -/
def stopsKey (stops : List Stop) : String :=
  String.intercalate "," (stops.map (fun s => s.color ++ "@" ++ s.offset))

/-- `paintKey` from `svg-registry.js`: the canonical dedup key of a paint.
For solids the source interpolates `paint.hex`, which `extractPaint` always
sets on solid paints; a missing `hex` renders as the JS string
`"undefined"`. -/
def paintKey (p : Paint) : String :=
  match p.type with
  | PaintType.none => "none"
  | PaintType.solid => "solid:" ++ p.hex.getD "undefined"
  | PaintType.linear => "linear:" ++ stopsKey p.stops
  | PaintType.radial => "radial:" ++ stopsKey p.stops
  | PaintType.complexMesh => "complex:" ++ p.raw

/-- `deduplicatePaints` from `svg-registry.js`: fold the extracted paints
into an insertion-ordered map keyed by `paintKey`; the first paint with a
given key is stored as a copy carrying the fresh id `paint_<size>`. -/
def deduplicatePaints (paintsList : List Paint) : List (String × Paint) :=
  paintsList.foldl (fun m p =>
    let k := paintKey p
    if m.any (fun kv => kv.1 = k) then m
    else m ++ [(k, { p with id := some ("paint_" ++ toString m.length) })]) []

/-- All index pairs `(i, j)` with `i < j < n`, in the scan order of the
nested `for` loops of the source (`i` ascending, then `j` from `i + 1`). -/
def allPairs (n : ℕ) : List (ℕ × ℕ) :=
  (List.range n).flatMap (fun i =>
    ((List.range n).filter (fun j => i < j)).map (fun j => (i, j)))

/-- The best-pair scan shared by `clusterByPerceptualDistance`
(`color-utils.js`) and `extractPalette` (`svg-registry.js`): starting from
`bestDist = Infinity` (modelled as `Option.none`) and the initial indices
`(0, 1)`, keep the first pair attaining the strictly smallest key. -/
def minPairStep (key : ℕ × ℕ → ℚ) (acc : Option ℚ × (ℕ × ℕ)) (pr : ℕ × ℕ) :
    Option ℚ × (ℕ × ℕ) :=
  let d := key pr
  match acc.1 with
  | Option.none => (some d, pr)
  | some best => if d < best then (some d, pr) else acc

/-- Fold `minPairStep` over the scanned pairs, starting from the initial
accumulator of the source loops. -/
def foldMinPair (key : ℕ × ℕ → ℚ) (pairs : List (ℕ × ℕ)) : Option ℚ × (ℕ × ℕ) :=
  pairs.foldl (minPairStep key) (Option.none, (0, 1))

/-- The smallest squared ΔE between a member of `ca` and a member of `cb`
(single linkage).  In the source this minimum is woven into the global
best-pair scan; taking the per-pair minimum first is equivalent because the
scan keeps the first pair whose running minimum strictly improves. -/
def pairMinDistSq {α : Type} (ca cb : List (α × Lab)) : ℚ :=
  match ca.flatMap (fun ma => cb.map (fun mb => deltaESq ma.2 mb.2)) with
  | [] => 0
  | d :: ds => ds.foldl min d

/-- One best-pair scan over the active clusters. -/
def clusterBestPair {α : Type} (clusters : List (List (α × Lab))) : Option ℚ × (ℕ × ℕ) :=
  foldMinPair
    (fun pr => pairMinDistSq (clusters.getD pr.1 []) (clusters.getD pr.2 []))
    (allPairs clusters.length)

/-- The merge loop of `clusterByPerceptualDistance`: while more than one
cluster is active, find the closest pair; stop if its distance exceeds the
threshold, otherwise append the members of the second cluster to the first
and deactivate the second.  The loop runs at most `length - 1` times, so any
fuel of at least the initial length is enough. -/
def mergeClusters {α : Type} (thresholdSq : ℚ) : ℕ → List (List (α × Lab)) → List (List (α × Lab))
  | 0, clusters => clusters
  | Nat.succ fuel, clusters =>
    if clusters.length ≤ 1 then clusters
    else
      match clusterBestPair clusters with
      | (Option.none, _) => clusters
      | (some dSq, (i, j)) =>
        if thresholdSq < dSq then clusters
        else
          mergeClusters thresholdSq fuel
            ((clusters.set i (clusters.getD i [] ++ clusters.getD j [])).eraseIdx j)

/-- `clusterByPerceptualDistance` from `color-utils.js`: single-linkage
agglomerative clustering of `items` by the squared perceptual distance of
`rgbOf` under `labOf`, with squared threshold `thresholdSq` (the source
compares `deltaE > threshold`; both sides nonnegative). -/
def clusterByPerceptualDistance {α : Type} (labOf : RGBA → Lab) (rgbOf : α → RGBA)
    (items : List α) (thresholdSq : ℚ) : List (List α) :=
  match items with
  | [] => []
  | _ :: _ =>
    let labs := items.map (fun it => (it, labOf (rgbOf it)))
    (mergeClusters thresholdSq items.length (labs.map (fun l => [l]))).map
      (fun c => c.map Prod.fst)

/-- A paint group as built by `groupPaints`: id, JS type string, member paint
ids, and the representative paint (first member encountered). -/
structure PaintGroup where
  id : String
  type : String
  members : List String
  representative : Paint
deriving DecidableEq, Repr

/-- Indexed map in source order, modelling the JS `(x, i) => …` callbacks of
`Array.prototype.map` / `forEach`. -/
def mapWithIdx {α β : Type} (f : ℕ → α → β) : ℕ → List α → List β
  | _, [] => []
  | i, a :: t => f i a :: mapWithIdx f (i + 1) t

/-- The split of `groupPaints`: a solid paint with nonzero alpha goes to the
perceptual clustering, everything else becomes a singleton group. -/
def solidFilter (p : Paint) : Bool :=
  p.type == PaintType.solid && decide (0 < p.rgba.a)

/-- The id of a table paint as used in group member lists (table paints
always carry one; a missing id would surface as the JS value `undefined`). -/
def paintIdOf (p : Paint) : String :=
  p.id.getD "undefined"

/-- `groupPaints` from `svg-registry.js`: split the deduplicated paint table
into solid paints with nonzero alpha and everything else; cluster the solids
perceptually (default threshold 12, squared here to 144); emit the clusters
as `pg_<n>` groups (representative = first member) followed by one
`pg_ns_<n>` singleton group per non-solid paint. -/
def groupPaints (labOf : RGBA → Lab) (paintsMap : List (String × Paint))
    (thresholdSq : ℚ := 144) : List PaintGroup :=
  mapWithIdx (fun i cluster =>
      { id := "pg_" ++ toString i, type := "solid_cluster",
        members := cluster.map paintIdOf,
        representative := cluster.headD defaultPaint : PaintGroup }) 0
    (clusterByPerceptualDistance labOf Paint.rgba
      (((paintsMap.map Prod.snd).filter solidFilter)) thresholdSq) ++
  mapWithIdx (fun i p =>
      { id := "pg_ns_" ++ toString i, type := p.type.toTag,
        members := [paintIdOf p], representative := p : PaintGroup }) 0
    ((paintsMap.map Prod.snd).filter (fun p => ! solidFilter p))

/-- A bounding box `{x, y, width, height}` (also used for the viewBox). -/
structure BBox where
  x : ℚ
  y : ℚ
  width : ℚ
  height : ℚ
deriving DecidableEq, Repr

/-- A 2D point. -/
structure Point where
  x : ℚ
  y : ℚ
deriving DecidableEq, Repr

/-- The geometry fingerprint of a shape (`geometryFingerprint` in
`geometry-utils.js`); its values come from the browser geometry APIs and are
input data here. -/
structure Geo where
  bbox : BBox
  area : ℚ
  centroid : Point
  perimeter : ℚ
  pointHash : ℤ
deriving DecidableEq, Repr

/-- A paint object as returned by `extractPaint` — identical to `Paint`
except that it can never carry an `id` (the JS objects have no such
property). -/
structure RawPaint where
  type : PaintType
  raw : String
  rgba : RGBA
  lab : Option Lab := Option.none
  hex : Option String := Option.none
  stops : List Stop := []
deriving DecidableEq, Repr

/-- View a freshly extracted paint as a `Paint` (with no id). -/
def RawPaint.toPaint (p : RawPaint) : Paint :=
  { type := p.type, raw := p.raw, rgba := p.rgba, lab := p.lab, hex := p.hex,
    stops := p.stops }

/-- The per-element input consumed by the `buildRegistries` loop: the
geometry fingerprint from the Geometry Provider and the paints returned by
`extractPaint` for `fill` and `stroke`, plus the relevant attributes. -/
structure RawPath where
  attrId : Option String := Option.none
  geo : Geo
  fill : RawPaint
  stroke : RawPaint := { type := PaintType.none, raw := "none", rgba := ⟨0, 0, 0, 0⟩ }
  fillRule : Option String := Option.none
  compoundParent : Option String := Option.none
  subpathIndex : Option ℤ := Option.none
deriving DecidableEq, Repr

/-- A registered path entry (`pathEntry` object in `buildRegistries`). -/
structure PathEntry where
  id : String
  originalId : String
  bbox : BBox
  area : ℚ
  centroid : Point
  perimeter : ℚ
  pointHash : ℤ
  fillPaint : Paint
  strokePaint : Paint
  fillRule : String
  zIndex : ℕ
  compoundParent : Option String
  subpathIndex : Option ℤ
deriving DecidableEq, Repr

/-- A path-to-paint-key binding recorded alongside each path entry. -/
structure Binding where
  pathId : String
  fillPaintKey : String
  strokePaintKey : String
deriving DecidableEq, Repr

/-- The result of `buildRegistries`. -/
structure Registries where
  paths : List PathEntry
  paints : List (String × Paint)
  bindings : List Binding
  paintGroups : List PaintGroup
  viewBox : BBox
deriving Repr

/-- Accumulator of the `buildRegistries` loop. -/
structure BuildState where
  z : ℕ
  paths : List PathEntry
  allPaints : List Paint
  bindings : List Binding
deriving Repr

/-- One iteration of the `buildRegistries` loop over a `path` element:
skip degenerate shapes (zero area and zero perimeter, still consuming a
zIndex), otherwise register the entry, record its fill paint (and stroke
paint when not `none`) and its key binding. -/
def buildStep (st : BuildState) (rp : RawPath) : BuildState :=
  if rp.geo.area = 0 ∧ rp.geo.perimeter = 0 then
    { st with z := st.z + 1 }
  else
    let fillPaint := rp.fill.toPaint
    let strokePaint := rp.stroke.toPaint
    let entry : PathEntry :=
      { id := "p_" ++ toString st.z,
        originalId := (rp.attrId.orElse (fun _ => rp.compoundParent)).getD
          ("anon_" ++ toString st.z),
        bbox := rp.geo.bbox, area := rp.geo.area, centroid := rp.geo.centroid,
        perimeter := rp.geo.perimeter, pointHash := rp.geo.pointHash,
        fillPaint := fillPaint, strokePaint := strokePaint,
        fillRule := rp.fillRule.getD "nonzero",
        zIndex := st.z, compoundParent := rp.compoundParent,
        subpathIndex := rp.subpathIndex }
    { z := st.z + 1,
      paths := st.paths ++ [entry],
      allPaints := st.allPaints ++
        (if strokePaint.type = PaintType.none then [fillPaint]
         else [fillPaint, strokePaint]),
      bindings := st.bindings ++
        [⟨"p_" ++ toString st.z, paintKey fillPaint, paintKey strokePaint⟩] }

/-- `buildRegistries` from `svg-registry.js`, with the DOM walk abstracted
into the list of per-element inputs: register the paths in document order,
deduplicate the collected paints and group them. -/
def buildRegistries (labOf : RGBA → Lab) (viewBox : BBox)
    (inputs : List RawPath) : Registries :=
  let st := inputs.foldl buildStep ⟨0, [], [], []⟩
  let paintsMap := deduplicatePaints st.allPaints
  { paths := st.paths, paints := paintsMap, bindings := st.bindings,
    paintGroups := groupPaints labOf paintsMap, viewBox := viewBox }

/-- A 100×100 viewBox used by the concrete examples. -/
def vb100 : BBox := ⟨0, 0, 100, 100⟩

/-- A solid red fill as `extractPaint` returns it for `fill="#ff0000"`
(the `lab` field, which the source fills with `rgbToLab`, is irrelevant to
the claims settled on this input and is left unset). -/
def rawSolidRed : RawPaint :=
  { type := PaintType.solid, raw := "#ff0000", rgba := ⟨255, 0, 0, 1⟩,
    hex := some (rgbToHex ⟨255, 0, 0, 1⟩) }

/-- A registry input: an element with the given id, a 40×25 box geometry and
a solid red fill. -/
def redInput (elId : String) : RawPath :=
  { attrId := some elId,
    geo := { bbox := ⟨10, 10, 40, 25⟩, area := 1000, centroid := ⟨30, 45 / 2⟩,
             perimeter := 130, pointHash := 0 },
    fill := rawSolidRed }

/-- Claim C5: registering the same solid color twice under different element
ids produces exactly one `PaintGroup`; the deduplicated table assigns the
single id `paint_0` to that color, both path bindings resolve (through the
canonical paint key) to that id, and the group membership list contains it. -/
theorem c5_dedup_idempotent (labOf : RGBA → Lab) :
    let r := buildRegistries labOf vb100 [redInput "a", redInput "b"]
    r.paintGroups.length = 1 ∧
    r.bindings.map Binding.fillPaintKey = ["solid:#ff0000", "solid:#ff0000"] ∧
    (r.paints.lookup "solid:#ff0000").map Paint.id = some (some "paint_0") ∧
    r.paintGroups.map PaintGroup.members = [["paint_0"]] := by
  refine ⟨?_, ?_, ?_, ?_⟩ <;> with_unfolding_all rfl

/-- The pair selected by the best-pair scan is either the initial `(0, 1)`
or one of the scanned pairs. -/
theorem foldl_minPairStep_mem (key : ℕ × ℕ → ℚ) :
    ∀ (pairs : List (ℕ × ℕ)) (acc : Option ℚ × (ℕ × ℕ)),
      (pairs.foldl (minPairStep key) acc).2 = acc.2 ∨
        (pairs.foldl (minPairStep key) acc).2 ∈ pairs
  | [], acc => Or.inl rfl
  | pr :: t, acc => by
    rw [List.foldl_cons]
    have hstep : (minPairStep key acc pr).2 = acc.2 ∨ (minPairStep key acc pr).2 = pr := by
      rcases acc with ⟨od, p⟩
      rcases od with _ | best
      · exact Or.inr rfl
      · unfold minPairStep
        dsimp only
        split
        · exact Or.inr rfl
        · exact Or.inl rfl
    rcases foldl_minPairStep_mem key t (minPairStep key acc pr) with h | h
    · rcases hstep with h2 | h2
      · exact Or.inl (h.trans h2)
      · exact Or.inr (by rw [h, h2]; exact List.mem_cons_self pr t)
    · exact Or.inr (List.mem_cons_of_mem pr h)

/-- Every scanned pair `(i, j)` satisfies `i < j < n`. -/
theorem allPairs_mem {n : ℕ} {pr : ℕ × ℕ} (h : pr ∈ allPairs n) :
    pr.1 < pr.2 ∧ pr.2 < n := by
  unfold allPairs at h
  rw [List.mem_flatMap] at h
  obtain ⟨i, hi, hmem⟩ := h
  rw [List.mem_map] at hmem
  obtain ⟨j, hj, rfl⟩ := hmem
  rw [List.mem_filter, List.mem_range] at hj
  exact ⟨by simpa using hj.2, hj.1⟩

/-- Moving one cluster to the front is a permutation of the flattening. -/
theorem getD_append_eraseIdx_flatten_perm {β : Type} :
    ∀ (t : List (List β)) (k : ℕ), k < t.length →
      (t.getD k [] ++ (t.eraseIdx k).flatten).Perm t.flatten
  | [], k, h => by simp at h
  | c :: t, 0, _ => by simp
  | c :: t, k + 1, h => by
    have ih := getD_append_eraseIdx_flatten_perm t k (by simpa using h)
    simp only [List.getD_cons_succ, List.eraseIdx_cons_succ, List.flatten_cons]
    have h3 : ((t.getD k [] ++ c) ++ (t.eraseIdx k).flatten).Perm
        ((c ++ t.getD k []) ++ (t.eraseIdx k).flatten) :=
      List.perm_append_comm.append_right _
    have h4 : (c ++ (t.getD k [] ++ (t.eraseIdx k).flatten)).Perm (c ++ t.flatten) :=
      ih.append_left c
    rw [← List.append_assoc]
    exact h3.trans (by rw [List.append_assoc]; exact h4)

/-- One merge step — append the members of cluster `j` to cluster `i` and
drop cluster `j` — permutes the flattened member list. -/
theorem merge_set_eraseIdx_flatten_perm {β : Type} :
    ∀ (l : List (List β)) (i j : ℕ), i < j → j < l.length →
      (((l.set i (l.getD i [] ++ l.getD j [])).eraseIdx j).flatten).Perm l.flatten
  | [], _, _, _, hj => by simp at hj
  | c :: t, 0, k + 1, _, hj => by
    simp only [List.getD_cons_zero, List.getD_cons_succ, List.set_cons_zero,
      List.eraseIdx_cons_succ, List.flatten_cons]
    have ih := getD_append_eraseIdx_flatten_perm t k (by simpa using hj)
    rw [List.append_assoc]
    exact ih.append_left c
  | c :: t, i + 1, j + 1, hij, hj => by
    simp only [List.getD_cons_succ, List.set_cons_succ, List.eraseIdx_cons_succ,
      List.flatten_cons]
    exact (merge_set_eraseIdx_flatten_perm t i j (by omega) (by simpa using hj)).append_left c

/-- The merge loop permutes the flattened member list. -/
theorem mergeClusters_flatten_perm {α : Type} (thresholdSq : ℚ) :
    ∀ (fuel : ℕ) (clusters : List (List (α × Lab))),
      ((mergeClusters thresholdSq fuel clusters).flatten).Perm clusters.flatten
  | 0, clusters => List.Perm.refl _
  | Nat.succ fuel, clusters => by
    rw [mergeClusters]
    split
    · exact List.Perm.refl _
    · rename_i hlen
      split
      · exact List.Perm.refl _
      · rename_i dSq i j heq
        split
        · exact List.Perm.refl _
        · have hn : 2 ≤ clusters.length := by omega
          have hpair : i < j ∧ j < clusters.length := by
            have hm := foldl_minPairStep_mem
              (fun pr => pairMinDistSq (clusters.getD pr.1 []) (clusters.getD pr.2 []))
              (allPairs clusters.length) (Option.none, (0, 1))
            have hsnd : (clusterBestPair clusters).2 = (i, j) := by
              rw [heq]
            rw [clusterBestPair, foldMinPair] at hsnd
            rcases hm with h | h
            · rw [hsnd] at h
              have h1 : i = 0 := congrArg Prod.fst h
              have h2 : j = 1 := congrArg Prod.snd h
              omega
            · rw [hsnd] at h
              exact allPairs_mem h
          exact (mergeClusters_flatten_perm thresholdSq fuel _).trans
            (merge_set_eraseIdx_flatten_perm clusters i j hpair.1 hpair.2)

/-- Flattening a list of singletons gives back the list. -/
theorem flatten_map_singleton {β : Type} (l : List β) :
    (l.map (fun x => [x])).flatten = l := by
  induction l with
  | nil => rfl
  | cons a t ih => simp [ih]

/-- The clusters produced by `clusterByPerceptualDistance` are a partition
of the input items, up to order: their concatenation is a permutation of the
input list. -/
theorem clusterByPerceptualDistance_flatten_perm {α : Type} (labOf : RGBA → Lab)
    (rgbOf : α → RGBA) (items : List α) (tSq : ℚ) :
    ((clusterByPerceptualDistance labOf rgbOf items tSq).flatten).Perm items := by
  match items with
  | [] => simp [clusterByPerceptualDistance]
  | a :: t =>
    show ((mergeClusters tSq (a :: t).length
        ((((a :: t).map (fun it => (it, labOf (rgbOf it)))).map (fun l => [l])))).map
          (fun c => c.map Prod.fst)).flatten.Perm (a :: t)
    rw [← List.map_flatten]
    have h1 := mergeClusters_flatten_perm tSq (a :: t).length
      (((a :: t).map (fun it => (it, labOf (rgbOf it)))).map (fun l => [l]))
    rw [flatten_map_singleton] at h1
    have h2 := h1.map Prod.fst
    rw [List.map_map] at h2
    simpa [Function.comp_def] using h2

/-- Pushing a list function through `mapWithIdx` when it does not depend on
the index. -/
theorem mapWithIdx_flatMap {α β γ : Type} (f : ℕ → α → β) (g : β → List γ)
    (h : α → List γ) (hyp : ∀ i a, g (f i a) = h a) :
    ∀ (i : ℕ) (l : List α), (mapWithIdx f i l).flatMap g = l.flatMap h
  | _, [] => rfl
  | i, a :: t => by
    rw [mapWithIdx, List.flatMap_cons, List.flatMap_cons, hyp,
      mapWithIdx_flatMap f g h hyp]

/-- `flatMap` of per-member lists equals mapping over the flattening. -/
theorem flatMap_map_eq {β γ : Type} (f : β → γ) :
    ∀ (L : List (List β)), L.flatMap (fun c => c.map f) = L.flatten.map f
  | [] => rfl
  | c :: t => by
    rw [List.flatMap_cons, List.flatten_cons, List.map_append, flatMap_map_eq f t]

/-- `flatMap` of singletons is `map`. -/
theorem flatMap_singleton_eq {β γ : Type} (f : β → γ) :
    ∀ (l : List β), l.flatMap (fun p => [f p]) = l.map f
  | [] => rfl
  | a :: t => by
    rw [List.flatMap_cons, List.map_cons, flatMap_singleton_eq f t]
    rfl

/-- Summing per-group member counts equals counting in the concatenation of
all member lists. -/
theorem sum_count_members (a : String) :
    ∀ (gs : List PaintGroup),
      (gs.map (fun g => g.members.count a)).sum = (gs.flatMap PaintGroup.members).count a
  | [] => rfl
  | g :: t => by
    rw [List.map_cons, List.sum_cons, List.flatMap_cons, List.count_append,
      sum_count_members a t]

/-- Claim C6: after `groupPaints`, the member ids of all paint groups are a
permutation of the ids of the deduplicated paint table (solid paints with
nonzero alpha partitioned by perceptual clustering, every other paint a
singleton group); consequently, when the table ids are distinct, every table
paint belongs to exactly one group: its total membership count across all
groups is 1. -/
theorem c6_groupPaints_partition (labOf : RGBA → Lab)
    (paintsMap : List (String × Paint)) (tSq : ℚ) :
    ((groupPaints labOf paintsMap tSq).flatMap PaintGroup.members).Perm
      ((paintsMap.map Prod.snd).map paintIdOf) ∧
    (((paintsMap.map Prod.snd).map paintIdOf).Nodup →
      ∀ p ∈ paintsMap.map Prod.snd,
        ((groupPaints labOf paintsMap tSq).map
            (fun g => g.members.count (paintIdOf p))).sum = 1) := by
  have hperm : ((groupPaints labOf paintsMap tSq).flatMap PaintGroup.members).Perm
      ((paintsMap.map Prod.snd).map paintIdOf) := by
    rw [groupPaints, List.flatMap_append,
      mapWithIdx_flatMap _ PaintGroup.members (fun c => c.map paintIdOf) (fun _ _ => rfl),
      mapWithIdx_flatMap _ PaintGroup.members (fun p => [paintIdOf p]) (fun _ _ => rfl),
      flatMap_map_eq, flatMap_singleton_eq]
    have hcl := (clusterByPerceptualDistance_flatten_perm labOf Paint.rgba
      ((paintsMap.map Prod.snd).filter solidFilter) tSq).map paintIdOf
    have hfil : (((paintsMap.map Prod.snd).filter solidFilter).map paintIdOf ++
        ((paintsMap.map Prod.snd).filter (fun p => ! solidFilter p)).map paintIdOf).Perm
          ((paintsMap.map Prod.snd).map paintIdOf) := by
      rw [← List.map_append]
      exact (List.filter_append_perm solidFilter (paintsMap.map Prod.snd)).map paintIdOf
    exact (hcl.append_right _).trans hfil
  refine ⟨hperm, fun hnd p hp => ?_⟩
  rw [sum_count_members, hperm.count_eq]
  exact List.count_eq_one_of_mem hnd (List.mem_map_of_mem paintIdOf hp)

/-- A concrete affine stand-in for the sRGB→Lab map, used by witnesses to
evaluate the clustering on closed inputs. -/
def labAff : RGBA → Lab :=
  fun c => ⟨c.r / 10, c.g / 10, c.b / 10⟩

/-- A solid blue fill as `extractPaint` returns it for `fill="#0000ff"`. -/
def rawSolidBlue : RawPaint :=
  { type := PaintType.solid, raw := "#0000ff", rgba := ⟨0, 0, 255, 1⟩,
    hex := some (rgbToHex ⟨0, 0, 255, 1⟩) }

/-- A concrete deduplicated paint table: solid red, solid blue, and a `none`
paint. -/
def demoTable : List (String × Paint) :=
  deduplicatePaints [rawSolidRed.toPaint, rawSolidBlue.toPaint,
    ({ type := PaintType.none, raw := "none", rgba := ⟨0, 0, 0, 0⟩ } : RawPaint).toPaint]

/-- Witness for C6: on the concrete table, the table ids are distinct and
the red paint (`paint_0`) belongs to exactly one of the groups produced at
the default threshold. -/
theorem c6_groupPaints_partition_witness :
    ((demoTable.map Prod.snd).map paintIdOf).Nodup ∧
    { rawSolidRed.toPaint with id := some "paint_0" } ∈ demoTable.map Prod.snd ∧
    ((groupPaints labAff demoTable 144).map
        (fun g => g.members.count
          (paintIdOf { rawSolidRed.toPaint with id := some "paint_0" }))).sum = 1 := by
  refine ⟨?_, ?_, ?_⟩
  · with_unfolding_all decide
  · with_unfolding_all decide
  · exact (c6_groupPaints_partition labAff demoTable 144).2
      (by with_unfolding_all decide) _ (by with_unfolding_all decide)

/-- A white-region decision as it appears in `report.decisions`
(`generateReport` in `src/unnamed/part_001`). -/
structure Decision where
  pathId : String
  originalId : String := ""
  action : String
  confidence : ℚ := 0
deriving DecidableEq, Repr

/-- The part of the analysis report consumed by the version engine. -/
structure Report where
  decisions : List Decision
deriving DecidableEq, Repr

/-- An entry of the ink profile (`inkColors` element in
`computeInkProfile`). -/
structure InkColor where
  groupId : String
  paint : Paint
  hex : String
  lab : Lab
  area : ℚ
  isGradient : Bool
deriving DecidableEq, Repr

/-- The result of `computeInkProfile`. -/
structure InkProfile where
  inkColors : List InkColor
  gradientPresent : Bool
  inkCount : ℕ
deriving DecidableEq, Repr

/-- The path ids covered by a `background_delete` or `counter_hole`
decision. -/
def excludedPathIds (decisions : List Decision) : List String :=
  (decisions.filter
    (fun d => d.action = "background_delete" ∨ d.action = "counter_hole")).map
    Decision.pathId

/-- `isGroupExcluded` from `computeInkProfile` (`svg-registry.js`): the group
is excluded unless some member id matches the `id` property of the fill
paint of some non-excluded path.  Path fill paints are the objects built by
`extractPaint`, which never carry an `id`. -/
def isGroupExcluded (paths : List PathEntry) (excluded : List String)
    (group : PaintGroup) : Bool :=
  ! group.members.any (fun memberId =>
      paths.any (fun path =>
        path.fillPaint.id == some memberId && ! excluded.contains path.id))

/-- `groupArea` from `computeInkProfile`: total area of the non-excluded
paths whose fill paint `id` matches a member id. -/
def groupArea (paths : List PathEntry) (excluded : List String)
    (group : PaintGroup) : ℚ :=
  (group.members.map (fun memberId =>
    ((paths.filter (fun path =>
        path.fillPaint.id == some memberId && ! excluded.contains path.id)).map
      PathEntry.area).sum)).sum

/-- One iteration of the `computeInkProfile` loop over the paint groups:
skip groups with a `none` representative, a white-like solid representative,
or an excluded member set; otherwise record the gradient flag and append the
ink color entry. -/
def inkStep (labOf : RGBA → Lab) (paths : List PathEntry) (excluded : List String)
    (st : List InkColor × Bool) (group : PaintGroup) : List InkColor × Bool :=
  let rep := group.representative
  if rep.type = PaintType.none then st
  else if rep.type = PaintType.solid ∧ isWhiteLike labOf rep.rgba then st
  else if isGroupExcluded paths excluded group then st
  else
    (st.1 ++ [{ groupId := group.id, paint := rep,
                hex := rep.hex.getD (rgbToHex rep.rgba),
                lab := rep.lab.getD (labOf rep.rgba),
                area := groupArea paths excluded group,
                isGradient := decide (rep.type = PaintType.linear ∨ rep.type = PaintType.radial) }],
     st.2 || decide (rep.type = PaintType.linear ∨ rep.type = PaintType.radial))

/-- `computeInkProfile` from `svg-registry.js`: fold the paint groups through
`inkStep` and sort the surviving ink colors by descending area (stable, as
JS `Array.prototype.sort`). -/
def computeInkProfile (labOf : RGBA → Lab) (registries : Registries)
    (report : Report) : InkProfile :=
  let excluded := excludedPathIds report.decisions
  let st := registries.paintGroups.foldl
    (inkStep labOf registries.paths excluded) ([], false)
  let sorted := st.1.mergeSort (fun x y => decide (y.area ≤ x.area))
  { inkColors := sorted, gradientPresent := st.2, inkCount := sorted.length }

/-- Registered path entries never carry a paint id on their fill paint:
`buildStep` stores the `extractPaint` object itself. -/
theorem buildStep_fillPaint_id (st : BuildState) (rp : RawPath)
    (h : ∀ p ∈ st.paths, p.fillPaint.id = Option.none) :
    ∀ p ∈ (buildStep st rp).paths, p.fillPaint.id = Option.none := by
  intro p hp
  rw [buildStep] at hp
  split at hp
  · exact h p hp
  · simp only at hp
    rcases List.mem_append.mp hp with h1 | h1
    · exact h p h1
    · rcases List.mem_singleton.mp h1 with rfl
      rfl

/-- No path entry of a built registry carries a fill paint id. -/
theorem buildRegistries_fillPaint_id (labOf : RGBA → Lab) (vb : BBox)
    (inputs : List RawPath) :
    ∀ p ∈ (buildRegistries labOf vb inputs).paths, p.fillPaint.id = Option.none := by
  suffices h : ∀ (l : List RawPath) (st : BuildState),
      (∀ p ∈ st.paths, p.fillPaint.id = Option.none) →
      ∀ p ∈ (l.foldl buildStep st).paths, p.fillPaint.id = Option.none by
    exact h inputs ⟨0, [], [], []⟩ (by intro p hp; simp at hp)
  intro l
  induction l with
  | nil => intro st hst; exact hst
  | cons rp t ih => intro st hst; exact ih _ (buildStep_fillPaint_id st rp hst)

/-- When no path carries a fill paint id, every group is treated as fully
excluded. -/
theorem isGroupExcluded_of_no_ids (paths : List PathEntry) (excluded : List String)
    (group : PaintGroup) (h : ∀ p ∈ paths, p.fillPaint.id = Option.none) :
    isGroupExcluded paths excluded group = true := by
  rw [isGroupExcluded, Bool.not_eq_true']
  rw [List.any_eq_false]
  intro m _
  rw [Bool.not_eq_true, List.any_eq_false]
  intro p hp
  rw [h p hp]
  simp

/-- On every registry produced by `buildRegistries` the ink profile is
empty, whatever the decisions — the membership test
`path.fillPaint?.id === memberId` compares the always-absent `id` of the
extracted fill paint against the table ids, so `isGroupExcluded` holds for
every group and every ink color is skipped. -/
theorem computeInkProfile_built_empty (labOf : RGBA → Lab) (vb : BBox)
    (inputs : List RawPath) (report : Report) :
    computeInkProfile labOf (buildRegistries labOf vb inputs) report =
      { inkColors := [], gradientPresent := false, inkCount := 0 } := by
  have hid := buildRegistries_fillPaint_id labOf vb inputs
  have hstep : ∀ (st : List InkColor × Bool) (g : PaintGroup),
      inkStep labOf (buildRegistries labOf vb inputs).paths
        (excludedPathIds report.decisions) st g = st := by
    intro st g
    have hexc := isGroupExcluded_of_no_ids (buildRegistries labOf vb inputs).paths
      (excludedPathIds report.decisions) g hid
    rw [inkStep]
    simp [hexc]
  have hfold : ∀ (gs : List PaintGroup),
      gs.foldl (inkStep labOf (buildRegistries labOf vb inputs).paths
        (excludedPathIds report.decisions)) ([], false) = ([], false) := by
    intro gs
    induction gs with
    | nil => rfl
    | cons g t ih => rw [List.foldl_cons, hstep, ih]
  rw [computeInkProfile]
  simp only [hfold, List.mergeSort_nil]
  rfl

/-- Claim C1 (code bug): contrary to the claimed inclusion rule,
`computeInkProfile` returns an empty ink profile on *every* registry built
by `buildRegistries`, for any decisions — the membership test
`path.fillPaint?.id === memberId` compares the always-absent `id` of the
extracted fill paint against the table ids, so every group counts as fully
excluded.  In particular, at the concrete failing input — one registered
path with a solid red fill and no decisions — the ink profile is empty even
though the red paint group is present, its representative is neither `none`
nor white-like, and its member path is not excluded by any decision. -/
theorem c1_computeInkProfile_code_bug :
    (∀ (labOf : RGBA → Lab) (vb : BBox) (inputs : List RawPath) (report : Report),
      computeInkProfile labOf (buildRegistries labOf vb inputs) report =
        { inkColors := [], gradientPresent := false, inkCount := 0 }) ∧
    (computeInkProfile labAff
        (buildRegistries labAff vb100 [redInput "a"]) ⟨[]⟩).inkColors = [] ∧
    (buildRegistries labAff vb100 [redInput "a"]).paintGroups.map PaintGroup.id = ["pg_0"] ∧
    (buildRegistries labAff vb100 [redInput "a"]).paintGroups.map
      (fun g => g.representative.type) = [PaintType.solid] ∧
    excludedPathIds ([] : List Decision) = [] := by
  refine ⟨computeInkProfile_built_empty, ?_, ?_, ?_, ?_⟩
  · rw [computeInkProfile_built_empty]
  · with_unfolding_all rfl
  · with_unfolding_all rfl
  · rfl

/-- A working palette entry of `extractPalette` (after cloning the ink
colors): `{hex, lab, area, rgb}`. -/
structure PalEntry where
  hex : String
  lab : Lab
  area : ℚ
  rgb : RGBA
deriving DecidableEq, Repr

instance : Inhabited PalEntry := ⟨⟨"", ⟨0, 0, 0⟩, 0, ⟨0, 0, 0, 1⟩⟩⟩

/-- An output palette entry `{hex, lab, area}`. -/
structure PalColor where
  hex : String
  lab : Lab
  area : ℚ
deriving DecidableEq, Repr

/-- The closest-pair scan of the `extractPalette` merge loop. -/
def findMergePair (palette : List PalEntry) : ℕ × ℕ :=
  (foldMinPair
    (fun pr => deltaESq (palette.getD pr.1 default).lab (palette.getD pr.2 default).lab)
    (allPairs palette.length)).2

/-- The area-weighted merge of two palette entries: weights are the two
areas as shares of the combined area (one half each when the combined area
is zero), the merged rgb is the rounded weighted average, hex/lab are
recomputed from it, and the merged area is the sum. -/
def mergedEntry (labOf : RGBA → Lab) (a b : PalEntry) : PalEntry :=
  let totalArea := a.area + b.area
  let wA := if 0 < totalArea then a.area / totalArea else 1 / 2
  let wB := 1 - wA
  let mergedRgb : RGBA :=
    ⟨((jsRound (a.rgb.r * wA + b.rgb.r * wB) : ℤ) : ℚ),
     ((jsRound (a.rgb.g * wA + b.rgb.g * wB) : ℤ) : ℚ),
     ((jsRound (a.rgb.b * wA + b.rgb.b * wB) : ℤ) : ℚ), 1⟩
  { hex := rgbToHex mergedRgb, lab := labOf mergedRgb, area := totalArea,
    rgb := mergedRgb }

/-- One iteration of the `extractPalette` while loop: merge the closest pair
in place at the first index and splice out the second. -/
def mergeStep (labOf : RGBA → Lab) (palette : List PalEntry) : List PalEntry :=
  (palette.set (findMergePair palette).1
    (mergedEntry labOf (palette.getD (findMergePair palette).1 default)
      (palette.getD (findMergePair palette).2 default))).eraseIdx
    (findMergePair palette).2

/-- The `while (palette.length > maxColors)` loop; each iteration removes
exactly one entry, so any fuel of at least the initial length is enough. -/
def mergeLoop (labOf : RGBA → Lab) (maxColors : ℕ) : ℕ → List PalEntry → List PalEntry
  | 0, palette => palette
  | Nat.succ fuel, palette =>
    if palette.length ≤ maxColors then palette
    else mergeLoop labOf maxColors fuel (mergeStep labOf palette)

/-- `extractPalette` from `svg-registry.js`: empty profile gives an empty
palette; a profile within the budget is passed through (stripped to
`{hex, lab, area}`); otherwise greedily merge closest pairs down to exactly
`maxColors` entries.  (`c.paint?.rgba || {r:0,g:0,b:0,a:1}` always takes the
first branch here since every paint carries an `rgba`.) -/
def extractPalette (labOf : RGBA → Lab) (profile : InkProfile) (maxColors : ℕ) :
    List PalColor :=
  if profile.inkColors.length = 0 then []
  else if profile.inkColors.length ≤ maxColors then
    profile.inkColors.map (fun c => { hex := c.hex, lab := c.lab, area := c.area })
  else
    (mergeLoop labOf maxColors profile.inkColors.length
      (profile.inkColors.map (fun c =>
        { hex := c.hex, lab := c.lab, area := c.area, rgb := c.paint.rgba }))).map
      (fun p => { hex := p.hex, lab := p.lab, area := p.area })

/-- With at least two entries, the closest-pair scan returns honest indices
`i < j < length`. -/
theorem findMergePair_lt (palette : List PalEntry) (h : 2 ≤ palette.length) :
    (findMergePair palette).1 < (findMergePair palette).2 ∧
      (findMergePair palette).2 < palette.length := by
  rw [findMergePair, foldMinPair]
  rcases foldl_minPairStep_mem
      (fun pr => deltaESq (palette.getD pr.1 default).lab (palette.getD pr.2 default).lab)
      (allPairs palette.length) (Option.none, (0, 1)) with hm | hm
  · rw [hm]
    exact ⟨Nat.zero_lt_one, by simpa using h⟩
  · exact allPairs_mem hm

/-- Removing an entry subtracts its value from the mapped sum. -/
theorem sum_map_eraseIdx {β : Type} (f : β → ℚ) (d : β) :
    ∀ (t : List β) (j : ℕ), j < t.length →
      ((t.eraseIdx j).map f).sum = (t.map f).sum - f (t.getD j d)
  | [], j, h => by simp at h
  | c :: t, 0, _ => by
    simp only [List.eraseIdx_cons_zero, List.map_cons, List.sum_cons, List.getD_cons_zero]
    ring
  | c :: t, j + 1, h => by
    simp only [List.eraseIdx_cons_succ, List.map_cons, List.sum_cons, List.getD_cons_succ]
    rw [sum_map_eraseIdx f d t j (by simpa using h)]
    ring

/-- Replacing entry `i` and removing entry `j > i` updates the mapped sum
accordingly. -/
theorem sum_map_set_eraseIdx {β : Type} (f : β → ℚ) (d : β) :
    ∀ (l : List β) (i j : ℕ) (x : β), i < j → j < l.length →
      (((l.set i x).eraseIdx j).map f).sum
        = (l.map f).sum - f (l.getD i d) - f (l.getD j d) + f x
  | [], _, j, _, _, hj => by simp at hj
  | c :: t, 0, j + 1, x, _, hj => by
    simp only [List.set_cons_zero, List.eraseIdx_cons_succ, List.map_cons, List.sum_cons,
      List.getD_cons_zero, List.getD_cons_succ]
    rw [sum_map_eraseIdx f d t j (by simpa using hj)]
    ring
  | c :: t, i + 1, j + 1, x, hij, hj => by
    simp only [List.set_cons_succ, List.eraseIdx_cons_succ, List.map_cons, List.sum_cons,
      List.getD_cons_succ]
    rw [sum_map_set_eraseIdx f d t i j x (by omega) (by simpa using hj)]
    ring

/-- The merged entry carries the summed area. -/
theorem mergedEntry_area (labOf : RGBA → Lab) (a b : PalEntry) :
    (mergedEntry labOf a b).area = a.area + b.area := rfl

/-- One merge step removes exactly one entry. -/
theorem mergeStep_length (labOf : RGBA → Lab) (palette : List PalEntry)
    (h : 2 ≤ palette.length) :
    (mergeStep labOf palette).length = palette.length - 1 := by
  obtain ⟨hij, hj⟩ := findMergePair_lt palette h
  rw [mergeStep, List.length_eraseIdx]
  simp [List.length_set, hj]

/-- One merge step preserves the total area. -/
theorem mergeStep_area (labOf : RGBA → Lab) (palette : List PalEntry)
    (h : 2 ≤ palette.length) :
    ((mergeStep labOf palette).map PalEntry.area).sum
      = (palette.map PalEntry.area).sum := by
  obtain ⟨hij, hj⟩ := findMergePair_lt palette h
  rw [mergeStep, sum_map_set_eraseIdx PalEntry.area default palette _ _ _ hij hj,
    mergedEntry_area]
  ring

/-- The merge loop stops at exactly `min length maxColors` entries (given a
positive budget and enough fuel). -/
theorem mergeLoop_length (labOf : RGBA → Lab) (m : ℕ) (hm : 1 ≤ m) :
    ∀ (fuel : ℕ) (palette : List PalEntry), palette.length ≤ m + fuel →
      (mergeLoop labOf m fuel palette).length = min palette.length m
  | 0, palette, hle => by
    rw [mergeLoop, Nat.min_eq_left (by simpa using hle)]
  | Nat.succ fuel, palette, hle => by
    rw [mergeLoop]
    split
    · rename_i hle2
      rw [Nat.min_eq_left hle2]
    · rename_i hgt
      have h2 : 2 ≤ palette.length := by omega
      have hlen := mergeStep_length labOf palette h2
      rw [mergeLoop_length labOf m hm fuel (mergeStep labOf palette) (by omega), hlen,
        Nat.min_eq_right (by omega), Nat.min_eq_right (by omega)]

/-- The merge loop preserves the total area (given a positive budget). -/
theorem mergeLoop_area (labOf : RGBA → Lab) (m : ℕ) (hm : 1 ≤ m) :
    ∀ (fuel : ℕ) (palette : List PalEntry),
      ((mergeLoop labOf m fuel palette).map PalEntry.area).sum
        = (palette.map PalEntry.area).sum
  | 0, _ => rfl
  | Nat.succ fuel, palette => by
    rw [mergeLoop]
    split
    · rfl
    · rename_i hgt
      have h2 : 2 ≤ palette.length := by omega
      rw [mergeLoop_area labOf m hm fuel (mergeStep labOf palette),
        mergeStep_area labOf palette h2]

/-- Claim C4: for a positive color budget `m`, `extractPalette` returns the
profile unchanged (up to the `{hex, lab, area}` projection) when its size is
within budget, and otherwise the greedy closest-pair merge terminates with
exactly `m` entries whose combined area equals the total area of the
original profile (in particular an 8-entry profile reduced with budget 3
yields 3 entries of unchanged combined area). -/
theorem c4_extractPalette_spec (labOf : RGBA → Lab) (profile : InkProfile) (m : ℕ)
    (hm : 1 ≤ m) :
    (profile.inkColors.length ≤ m →
      extractPalette labOf profile m =
        profile.inkColors.map (fun c => { hex := c.hex, lab := c.lab, area := c.area })) ∧
    (m < profile.inkColors.length →
      (extractPalette labOf profile m).length = m ∧
      ((extractPalette labOf profile m).map PalColor.area).sum =
        (profile.inkColors.map InkColor.area).sum) := by
  constructor
  · intro hle
    rw [extractPalette]
    split
    · rename_i h0
      rw [List.length_eq_zero.mp h0]
      rfl
    · rfl
  · intro hgt
    have h0 : ¬ profile.inkColors.length = 0 := by omega
    have hle : ¬ profile.inkColors.length ≤ m := by omega
    rw [extractPalette, if_neg h0, if_neg hle]
    have hlen0 : (profile.inkColors.map (fun c =>
        ({ hex := c.hex, lab := c.lab, area := c.area, rgb := c.paint.rgba } : PalEntry))).length
        = profile.inkColors.length := List.length_map _ _
    constructor
    · rw [List.length_map,
        mergeLoop_length labOf m hm profile.inkColors.length _ (by omega), hlen0,
        Nat.min_eq_right (by omega)]
    · rw [List.map_map]
      show ((mergeLoop labOf m profile.inkColors.length _).map PalEntry.area).sum = _
      rw [mergeLoop_area labOf m hm, List.map_map]
      rfl

/-- A concrete 8-entry ink profile (distinct labs, areas 10, 20, …, 80). -/
def demoProfile8 : InkProfile :=
  { inkColors := (List.range 8).map (fun n =>
      { groupId := "pg_" ++ toString n,
        paint := { type := PaintType.solid, raw := "c", rgba := ⟨30 * n, 0, 0, 1⟩ },
        hex := "#000000", lab := ⟨30 * n, 0, 0⟩, area := 10 * (n + 1),
        isGradient := false }),
    gradientPresent := false, inkCount := 8 }

/-- Witness for C4: the concrete 8-entry profile reduced with budget 3 gives
exactly 3 palette entries whose combined area is the original total 360. -/
theorem c4_extractPalette_spec_witness :
    (1 ≤ 3 ∧ 3 < demoProfile8.inkColors.length) ∧
    (extractPalette labAff demoProfile8 3).length = 3 ∧
    ((extractPalette labAff demoProfile8 3).map PalColor.area).sum = 360 := by
  have h := (c4_extractPalette_spec labAff demoProfile8 3 (by norm_num)).2
    (by with_unfolding_all decide)
  refine ⟨⟨by norm_num, by with_unfolding_all decide⟩, h.1, ?_⟩
  rw [h.2]
  with_unfolding_all decide

/-- JS `Map.set` on an association list: overwrite the value in place when
the key exists, append otherwise. -/
def mapSet (m : List (String × String)) (k v : String) : List (String × String) :=
  if m.any (fun kv => kv.1 = k) then
    m.map (fun kv => if kv.1 = k then (k, v) else kv)
  else m ++ [(k, v)]

/-- One iteration of the nearest-palette scan of `buildPaintMapping`:
`bestDist` starts at Infinity (modelled as `Option.none`); a strictly
smaller distance replaces the current best. -/
def nearStep (repLab : Lab) (acc : Option ℚ × String) (p : PalColor) :
    Option ℚ × String :=
  let d := deltaESq repLab p.lab
  match acc.1 with
  | Option.none => (some d, p.hex)
  | some best => if d < best then (some d, p.hex) else acc

/-- The nearest-palette scan: `bestHex` starts at
`palette[0]?.hex || "#000000"`. -/
def nearestPaletteHex (repLab : Lab) (palette : List PalColor) : String :=
  (palette.foldl (nearStep repLab)
    (Option.none, (palette.head?.map PalColor.hex).getD "#000000")).2

/-- The value `buildPaintMapping` assigns to one paint group: `"none"` for a
`none` representative, `"#ffffff"` for a white-like solid representative,
otherwise the hex of the nearest palette entry (fallback `"#000000"` when
the palette is empty). -/
def mappingValue (labOf : RGBA → Lab) (palette : List PalColor)
    (group : PaintGroup) : String :=
  let rep := group.representative
  if rep.type = PaintType.none then "none"
  else if rep.type = PaintType.solid ∧ isWhiteLike labOf rep.rgba then "#ffffff"
  else nearestPaletteHex (rep.lab.getD (labOf rep.rgba)) palette

/-- `buildPaintMapping` from `svg-registry.js`: one `Map.set` per paint
group.  The `inkProfile` argument is unused by the source; the decision set
is computed but never read, so the report does not influence the result.
The guard `if (!rep) continue` never fires because every group built by
`groupPaints` carries a representative, so it has no counterpart here. -/
def buildPaintMapping (labOf : RGBA → Lab) (_inkProfile : InkProfile)
    (palette : List PalColor) (registries : Registries) (_report : Report) :
    List (String × String) :=
  registries.paintGroups.foldl
    (fun m g => mapSet m g.id (mappingValue labOf palette g)) []

/-- `Map.set` with a fresh key appends. -/
theorem mapSet_append (m : List (String × String)) (k v : String)
    (h : ∀ kv ∈ m, kv.1 ≠ k) : mapSet m k v = m ++ [(k, v)] := by
  rw [mapSet, if_neg]
  simp only [List.any_eq_true, not_exists, not_and]
  intro kv hkv
  simp [h kv hkv]

/-- Folding `Map.set` over groups with distinct ids (all fresh relative to
the accumulator) appends one entry per group. -/
theorem foldl_mapSet_eq (val : PaintGroup → String) :
    ∀ (groups : List PaintGroup) (m : List (String × String)),
      (groups.map PaintGroup.id).Nodup →
      (∀ g ∈ groups, ∀ kv ∈ m, kv.1 ≠ g.id) →
      groups.foldl (fun acc g => mapSet acc g.id (val g)) m
        = m ++ groups.map (fun g => (g.id, val g))
  | [], m, _, _ => by simp
  | g :: t, m, hnd, hdisj => by
    rw [List.foldl_cons, mapSet_append m g.id (val g) (hdisj g (List.mem_cons_self g t)),
      foldl_mapSet_eq val t (m ++ [(g.id, val g)]) (List.nodup_cons.mp hnd).2 ?_]
    · simp
    · intro g' hg' kv hkv
      rcases List.mem_append.mp hkv with h | h
      · exact hdisj g' (List.mem_cons_of_mem g hg') kv h
      · rcases List.mem_singleton.mp h with rfl
        intro hEq
        have hEq2 : g.id = g'.id := hEq
        exact (List.nodup_cons.mp hnd).1 (hEq2 ▸ List.mem_map_of_mem PaintGroup.id hg')

/-- Looking a group id up in the literal association list built from groups
with distinct ids. -/
theorem lookup_groups_map (val : PaintGroup → String) :
    ∀ (groups : List PaintGroup), (groups.map PaintGroup.id).Nodup →
      ∀ g ∈ groups,
        (groups.map (fun g => (g.id, val g))).lookup g.id = some (val g)
  | [], _, g, hg => absurd hg (List.not_mem_nil g)
  | g0 :: t, hnd, g, hg => by
    rcases List.mem_cons.mp hg with rfl | hgt
    · simp [List.lookup_cons]
    · rw [List.map_cons, List.lookup_cons]
      have hne : g.id ≠ g0.id := by
        intro hEq
        exact (List.nodup_cons.mp hnd).1 (hEq ▸ List.mem_map_of_mem PaintGroup.id hgt)
      have : (g.id == g0.id) = false := beq_false_of_ne hne
      rw [this]
      exact lookup_groups_map val t (List.nodup_cons.mp hnd).2 g hgt

/-- Full characterisation of the nearest-palette fold from a finite current
best: either nothing beats the current best and the accumulator survives, or
the result is the first entry attaining the minimum among those strictly
better than the current best. -/
theorem foldl_nearStep_spec (rep : Lab) :
    ∀ (l : List PalColor) (d : ℚ) (h : String),
      ((l.foldl (nearStep rep) (some d, h)).1 = some d ∧
        (l.foldl (nearStep rep) (some d, h)).2 = h ∧
        ∀ p ∈ l, d ≤ deltaESq rep p.lab) ∨
      (∃ (k : ℕ) (e : PalColor), l[k]? = some e ∧
        (l.foldl (nearStep rep) (some d, h)).1 = some (deltaESq rep e.lab) ∧
        (l.foldl (nearStep rep) (some d, h)).2 = e.hex ∧
        deltaESq rep e.lab < d ∧
        (∀ p ∈ l, deltaESq rep e.lab ≤ deltaESq rep p.lab) ∧
        (∀ j f, j < k → l[j]? = some f → deltaESq rep e.lab < deltaESq rep f.lab))
  | [], d, h => Or.inl ⟨rfl, rfl, by intro p hp; simp at hp⟩
  | p :: t, d, h => by
    rw [List.foldl_cons]
    by_cases hlt : deltaESq rep p.lab < d
    · have hstep : nearStep rep (some d, h) p = (some (deltaESq rep p.lab), p.hex) := by
        rw [nearStep]
        simp [hlt]
      rw [hstep]
      rcases foldl_nearStep_spec rep t (deltaESq rep p.lab) p.hex with
        ⟨h1, h2, hall⟩ | ⟨k, e, hk, h1, h2, hlt2, hmin, hfirst⟩
      · refine Or.inr ⟨0, p, List.getElem?_cons_zero, h1, h2, hlt, ?_, ?_⟩
        · intro q hq
          rcases List.mem_cons.mp hq with rfl | hq
          · exact le_refl _
          · exact hall q hq
        · intro j f hj _
          omega
      · refine Or.inr ⟨k + 1, e, by rw [List.getElem?_cons_succ]; exact hk, h1, h2, lt_trans hlt2 hlt, ?_, ?_⟩
        · intro q hq
          rcases List.mem_cons.mp hq with rfl | hq
          · exact le_of_lt hlt2
          · exact hmin q hq
        · intro j f hj hf
          cases j with
          | zero =>
            have hfp : f = p := by
              rw [List.getElem?_cons_zero] at hf
              exact (Option.some_inj.mp hf).symm
            rw [hfp]
            exact hlt2
          | succ j =>
            exact hfirst j f (by omega) (by rw [List.getElem?_cons_succ] at hf; exact hf)
    · have hstep : nearStep rep (some d, h) p = (some d, h) := by
        rw [nearStep]
        simp [hlt]
      rw [hstep]
      rcases foldl_nearStep_spec rep t d h with
        ⟨h1, h2, hall⟩ | ⟨k, e, hk, h1, h2, hlt2, hmin, hfirst⟩
      · refine Or.inl ⟨h1, h2, ?_⟩
        intro q hq
        rcases List.mem_cons.mp hq with rfl | hq
        · exact le_of_not_lt hlt
        · exact hall q hq
      · refine Or.inr ⟨k + 1, e, by rw [List.getElem?_cons_succ]; exact hk, h1, h2, hlt2, ?_, ?_⟩
        · intro q hq
          rcases List.mem_cons.mp hq with rfl | hq
          · exact le_of_lt (lt_of_lt_of_le hlt2 (le_of_not_lt hlt))
          · exact hmin q hq
        · intro j f hj hf
          cases j with
          | zero =>
            have hfp : f = p := by
              rw [List.getElem?_cons_zero] at hf
              exact (Option.some_inj.mp hf).symm
            rw [hfp]
            exact lt_of_lt_of_le hlt2 (le_of_not_lt hlt)
          | succ j =>
            exact hfirst j f (by omega) (by rw [List.getElem?_cons_succ] at hf; exact hf)

/-- On a nonempty palette, the nearest-palette scan returns the hex of the
first entry attaining the minimal squared ΔE (ties to the first scanned). -/
theorem nearestPaletteHex_spec (rep : Lab) (palette : List PalColor)
    (hne : palette ≠ []) :
    ∃ (k : ℕ) (e : PalColor), palette[k]? = some e ∧
      nearestPaletteHex rep palette = e.hex ∧
      (∀ p ∈ palette, deltaESq rep e.lab ≤ deltaESq rep p.lab) ∧
      (∀ j f, j < k → palette[j]? = some f →
        deltaESq rep e.lab < deltaESq rep f.lab) := by
  match palette, hne with
  | p :: t, _ =>
    rw [nearestPaletteHex, List.foldl_cons]
    have hstep : nearStep rep
        (Option.none, ((p :: t).head?.map PalColor.hex).getD "#000000") p
        = (some (deltaESq rep p.lab), p.hex) := rfl
    rw [hstep]
    rcases foldl_nearStep_spec rep t (deltaESq rep p.lab) p.hex with
      ⟨_, h2, hall⟩ | ⟨k, e, hk, _, h2, hlt, hmin, hfirst⟩
    · refine ⟨0, p, List.getElem?_cons_zero, h2, ?_, ?_⟩
      · intro q hq
        rcases List.mem_cons.mp hq with rfl | hq
        · exact le_refl _
        · exact hall q hq
      · intro j f hj _
        omega
    · refine ⟨k + 1, e, by rw [List.getElem?_cons_succ]; exact hk, h2, ?_, ?_⟩
      · intro q hq
        rcases List.mem_cons.mp hq with rfl | hq
        · exact le_of_lt hlt
        · exact hmin q hq
      · intro j f hj hf
        cases j with
        | zero =>
          have hfp : f = p := by
            rw [List.getElem?_cons_zero] at hf
            exact (Option.some_inj.mp hf).symm
          rw [hfp]
          exact hlt
        | succ j =>
          exact hfirst j f (by omega) (by rw [List.getElem?_cons_succ] at hf; exact hf)

/-- Claim C3: whenever the paint groups of a registry carry distinct ids (as
`groupPaints` assigns them), `buildPaintMapping` maps every group exactly
once — the keys are exactly the group ids, in order — and each entry is
`"none"` for a `none` representative, `"#ffffff"` for a white-like solid
representative, and otherwise (on a nonempty palette) the hex of the first
palette entry at minimal ΔE from the representative Lab, ties resolved to
the first palette entry scanned. -/
theorem c3_buildPaintMapping_total (labOf : RGBA → Lab) (ip : InkProfile)
    (palette : List PalColor) (registries : Registries) (report : Report)
    (hnd : (registries.paintGroups.map PaintGroup.id).Nodup) :
    ((buildPaintMapping labOf ip palette registries report).map Prod.fst
      = registries.paintGroups.map PaintGroup.id) ∧
    ∀ g ∈ registries.paintGroups,
      (buildPaintMapping labOf ip palette registries report).lookup g.id
        = some (mappingValue labOf palette g) ∧
      (g.representative.type = PaintType.none →
        mappingValue labOf palette g = "none") ∧
      (g.representative.type = PaintType.solid →
        isWhiteLike labOf g.representative.rgba = true →
        mappingValue labOf palette g = "#ffffff") ∧
      (¬ g.representative.type = PaintType.none →
        ¬ (g.representative.type = PaintType.solid ∧
            isWhiteLike labOf g.representative.rgba) →
        palette ≠ [] →
        ∃ (k : ℕ) (e : PalColor), palette[k]? = some e ∧
          mappingValue labOf palette g = e.hex ∧
          (∀ p ∈ palette,
            deltaESq (g.representative.lab.getD (labOf g.representative.rgba)) e.lab
              ≤ deltaESq (g.representative.lab.getD (labOf g.representative.rgba)) p.lab) ∧
          (∀ j f, j < k → palette[j]? = some f →
            deltaESq (g.representative.lab.getD (labOf g.representative.rgba)) e.lab
              < deltaESq (g.representative.lab.getD (labOf g.representative.rgba)) f.lab)) := by
  have heq : buildPaintMapping labOf ip palette registries report
      = registries.paintGroups.map (fun g => (g.id, mappingValue labOf palette g)) := by
    rw [buildPaintMapping,
      foldl_mapSet_eq (mappingValue labOf palette) registries.paintGroups [] hnd
        (by intro g _ kv hkv; simp at hkv)]
    simp
  refine ⟨by rw [heq, List.map_map]; rfl, fun g hg => ?_⟩
  refine ⟨by rw [heq]; exact lookup_groups_map _ registries.paintGroups hnd g hg,
    ?_, ?_, ?_⟩
  · intro h1
    simp [mappingValue, h1]
  · intro h1 h2
    have hno : ¬ g.representative.type = PaintType.none := by
      rw [h1]
      intro hc
      cases hc
    simp [mappingValue, hno, h1, h2]
  · intro h1 h2 hne
    simp only [mappingValue]
    rw [if_neg h1, if_neg h2]
    exact nearestPaletteHex_spec _ palette hne

/-- A concrete two-entry palette. -/
def demoPalette2 : List PalColor :=
  [{ hex := "#111111", lab := ⟨1, 1, 1⟩, area := 5 },
   { hex := "#222222", lab := ⟨30, 0, 0⟩, area := 5 }]

/-- Witness for C3: on the concrete single-red registry with a two-entry
palette, the group ids are distinct and the mapping keys are exactly the
group ids. -/
theorem c3_buildPaintMapping_total_witness :
    ((buildRegistries labAff vb100 [redInput "a"]).paintGroups.map PaintGroup.id).Nodup ∧
    ((buildPaintMapping labAff demoProfile8 demoPalette2
        (buildRegistries labAff vb100 [redInput "a"]) ⟨[]⟩).map Prod.fst
      = (buildRegistries labAff vb100 [redInput "a"]).paintGroups.map PaintGroup.id) :=
  ⟨by with_unfolding_all decide,
   (c3_buildPaintMapping_total labAff demoProfile8 demoPalette2
      (buildRegistries labAff vb100 [redInput "a"]) ⟨[]⟩
      (by with_unfolding_all decide)).1⟩

/-- Claim C10: with an empty palette (as `extractPalette` produces from an
empty ink profile) `buildPaintMapping` still maps every paint group (given
distinct group ids): `"none"` for `none` representatives, `"#ffffff"` for
white-like solids, and the fallback `"#000000"` for every other group. -/
theorem c10_buildPaintMapping_empty_palette (labOf : RGBA → Lab) (ip : InkProfile)
    (registries : Registries) (report : Report)
    (hnd : (registries.paintGroups.map PaintGroup.id).Nodup) :
    ((buildPaintMapping labOf ip [] registries report).map Prod.fst
      = registries.paintGroups.map PaintGroup.id) ∧
    ∀ g ∈ registries.paintGroups,
      (buildPaintMapping labOf ip [] registries report).lookup g.id
        = some (if g.representative.type = PaintType.none then "none"
            else if g.representative.type = PaintType.solid ∧
                isWhiteLike labOf g.representative.rgba then "#ffffff"
            else "#000000") := by
  have hmv : ∀ g : PaintGroup, mappingValue labOf ([] : List PalColor) g
      = (if g.representative.type = PaintType.none then "none"
          else if g.representative.type = PaintType.solid ∧
              isWhiteLike labOf g.representative.rgba then "#ffffff"
          else "#000000") := by
    intro g
    by_cases hA : g.representative.type = PaintType.none
    · simp [mappingValue, hA]
    · by_cases hB : g.representative.type = PaintType.solid ∧
          isWhiteLike labOf g.representative.rgba
      · simp [mappingValue, hA, hB]
      · simp [mappingValue, hA, hB, nearestPaletteHex]
  have heq : buildPaintMapping labOf ip [] registries report
      = registries.paintGroups.map
          (fun g => (g.id, mappingValue labOf ([] : List PalColor) g)) := by
    rw [buildPaintMapping,
      foldl_mapSet_eq (mappingValue labOf ([] : List PalColor))
        registries.paintGroups [] hnd (by intro g _ kv hkv; simp at hkv)]
    simp
  refine ⟨by rw [heq, List.map_map]; rfl, fun g hg => ?_⟩
  rw [heq, lookup_groups_map _ registries.paintGroups hnd g hg, hmv g]

/-- The red solid-cluster group as it appears in the single-red registry. -/
def demoRedGroup : PaintGroup :=
  { id := "pg_0", type := "solid_cluster", members := ["paint_0"],
    representative := { rawSolidRed.toPaint with id := some "paint_0" } }

/-- Witness for C10: on the concrete single-red registry with the empty
palette, the group ids are distinct, the red group is present, and it maps
to the fallback `"#000000"`. -/
theorem c10_buildPaintMapping_empty_palette_witness :
    ((buildRegistries labAff vb100 [redInput "a"]).paintGroups.map PaintGroup.id).Nodup ∧
    demoRedGroup ∈ (buildRegistries labAff vb100 [redInput "a"]).paintGroups ∧
    (buildPaintMapping labAff ⟨[], false, 0⟩ []
        (buildRegistries labAff vb100 [redInput "a"]) ⟨[]⟩).lookup "pg_0"
      = some "#000000" := by
  refine ⟨by with_unfolding_all decide, by with_unfolding_all decide, ?_⟩
  have h := (c10_buildPaintMapping_empty_palette labAff ⟨[], false, 0⟩
      (buildRegistries labAff vb100 [redInput "a"]) ⟨[]⟩
      (by with_unfolding_all decide)).2 demoRedGroup (by with_unfolding_all decide)
  show (buildPaintMapping labAff ⟨[], false, 0⟩ []
      (buildRegistries labAff vb100 [redInput "a"]) ⟨[]⟩).lookup demoRedGroup.id
    = some "#000000"
  rw [h]
  with_unfolding_all decide

/-- A shape-cluster candidate as assembled in `clusterShapes`
(`white-classifier.js` cluster source): id, centroid, bbox, area and
original id of a registered path. -/
structure ClusterMember where
  id : String
  centroid : Point
  bbox : BBox
  area : ℚ
  originalId : String
deriving DecidableEq, Repr

/-- `bboxAspectRatio` from `geometry-utils.js`: width over height, 1 when
the height is not positive. -/
def bboxAspectRatio (bbox : BBox) : ℚ :=
  if 0 < bbox.height then bbox.width / bbox.height else 1

/-- The aggregate bounding box of a cluster, as computed by the min/max
folds of `classifyCluster`.  The source starts from `±Infinity`; clusters
are invariantly nonempty, and the unreachable empty case is given a
degenerate box here. -/
def clusterBBox (members : List ClusterMember) : BBox :=
  match members with
  | [] => ⟨0, 0, 0, 0⟩
  | m :: t =>
    let minX := t.foldl (fun acc q => min acc q.bbox.x) m.bbox.x
    let minY := t.foldl (fun acc q => min acc q.bbox.y) m.bbox.y
    let maxX := t.foldl (fun acc q => max acc (q.bbox.x + q.bbox.width))
      (m.bbox.x + m.bbox.width)
    let maxY := t.foldl (fun acc q => max acc (q.bbox.y + q.bbox.height))
      (m.bbox.y + m.bbox.height)
    ⟨minX, minY, maxX - minX, maxY - minY⟩

/-- The classification record returned by `classifyCluster`. -/
structure ClusterInfo where
  type : String
  confidence : ℚ
  bbox : BBox
  aspectRatio : ℚ
  memberCount : ℕ
deriving DecidableEq, Repr

/-- `classifyCluster` from `white-classifier.js` cluster source: the ordered
if/else chain over the aggregate aspect ratio and member count.  The
`viewBox` parameter is accepted but unused, as in the source. -/
def classifyCluster (members : List ClusterMember) (_viewBox : BBox) : ClusterInfo :=
  let clusterBbox := clusterBBox members
  let ar := bboxAspectRatio clusterBbox
  if 3 < ar then
    ⟨"wordmark", 85 / 100, clusterBbox, ar, members.length⟩
  else if 2 < ar ∧ 5 < members.length then
    ⟨"wordmark", 65 / 100, clusterBbox, ar, members.length⟩
  else if ar < 2 ∧ members.length ≤ 8 then
    ⟨"icon", 7 / 10, clusterBbox, ar, members.length⟩
  else if ar < 3 / 2 then
    ⟨"icon", 8 / 10, clusterBbox, ar, members.length⟩
  else
    ⟨"unknown", 1 / 2, clusterBbox, ar, members.length⟩

/-- Three side-by-side 6×10 members: aggregate box 18×10, aspect ratio 1.8. -/
def demoMembers3 : List ClusterMember :=
  [⟨"p_0", ⟨3, 5⟩, ⟨0, 0, 6, 10⟩, 60, "a"⟩,
   ⟨"p_1", ⟨9, 5⟩, ⟨6, 0, 6, 10⟩, 60, "b"⟩,
   ⟨"p_2", ⟨15, 5⟩, ⟨12, 0, 6, 10⟩, 60, "c"⟩]

/-- Counterexample to claim C2 as stated: a cluster with aspect ratio 1.8
(strictly between 1.5 and 2.0) and 3 members (at most 5) does not fall
through to the default `unknown`/0.5 case — it matches the third band and is
classified `icon` at confidence 0.7. -/
theorem c2_classifyCluster_counterexample :
    (3 / 2 < (classifyCluster demoMembers3 vb100).aspectRatio ∧
      (classifyCluster demoMembers3 vb100).aspectRatio < 2 ∧
      (classifyCluster demoMembers3 vb100).memberCount ≤ 5) ∧
    ¬ ((classifyCluster demoMembers3 vb100).type = "unknown" ∧
        (classifyCluster demoMembers3 vb100).confidence = 1 / 2) ∧
    (classifyCluster demoMembers3 vb100).type = "icon" ∧
    (classifyCluster demoMembers3 vb100).confidence = 7 / 10 := by
  with_unfolding_all decide

/-- Claim C2 as amended: every cluster whose aggregate aspect ratio lies
strictly between 1.5 and 2.0 and whose member count is at most 5 matches the
third band of the if/else chain (`ar < 2.0` with at most 8 members) and is
classified `icon` with confidence 0.7. -/
theorem c2_classifyCluster_midband (vb : BBox) (members : List ClusterMember)
    (h1 : 3 / 2 < bboxAspectRatio (clusterBBox members))
    (h2 : bboxAspectRatio (clusterBBox members) < 2)
    (hc : members.length ≤ 5) :
    (classifyCluster members vb).type = "icon" ∧
      (classifyCluster members vb).confidence = 7 / 10 := by
  have hno3 : ¬ 3 < bboxAspectRatio (clusterBBox members) := by linarith
  have hno2 : ¬ (2 < bboxAspectRatio (clusterBBox members) ∧ 5 < members.length) := by
    rintro ⟨h, _⟩
    linarith
  have h3 : bboxAspectRatio (clusterBBox members) < 2 ∧ members.length ≤ 8 :=
    ⟨h2, by omega⟩
  simp [classifyCluster, hno3, hno2, h3]

/-- Witness for the amended C2 at the concrete 3-member cluster. -/
theorem c2_classifyCluster_midband_witness :
    (3 / 2 < bboxAspectRatio (clusterBBox demoMembers3) ∧
      bboxAspectRatio (clusterBBox demoMembers3) < 2 ∧
      demoMembers3.length ≤ 5) ∧
    (classifyCluster demoMembers3 vb100).type = "icon" ∧
    (classifyCluster demoMembers3 vb100).confidence = 7 / 10 := by
  refine ⟨⟨?_, ?_, ?_⟩, ?_⟩
  · with_unfolding_all decide
  · with_unfolding_all decide
  · with_unfolding_all decide
  · exact c2_classifyCluster_midband vb100 demoMembers3
      (by with_unfolding_all decide) (by with_unfolding_all decide)
      (by with_unfolding_all decide)

/-- `bboxContains` from `geometry-utils.js`: 2D bounding-box containment
with a 0.5-unit tolerance margin. -/
def bboxContains (outer inner : BBox) : Bool :=
  decide (outer.x - 1 / 2 ≤ inner.x) &&
  decide (outer.y - 1 / 2 ≤ inner.y) &&
  decide (inner.x + inner.width ≤ outer.x + outer.width + 1 / 2) &&
  decide (inner.y + inner.height ≤ outer.y + outer.height + 1 / 2)

/-- `isPointInShape` from `geometry-utils.js`: the Geometry Provider either
exposes `isPointInFill` (modelled as an oracle on path entries) or the
bounding-box fallback is used. -/
def isPointInShape (pointFill : Option (PathEntry → ℚ → ℚ → Bool))
    (el : PathEntry) (x y : ℚ) : Bool :=
  match pointFill with
  | some f => f el x y
  | Option.none =>
    decide (el.bbox.x ≤ x) && decide (x ≤ el.bbox.x + el.bbox.width) &&
    decide (el.bbox.y ≤ y) && decide (y ≤ el.bbox.y + el.bbox.height)

/-- `isShapeContainedIn` from `geometry-utils.js`: bounding-box containment
plus 8 evenly spaced horizontal samples at mid-height of the inner box, of
which at least 70% (that is, 5.6) must test inside the container. -/
def isShapeContainedIn (pointFill : Option (PathEntry → ℚ → ℚ → Bool))
    (containerEl containedEl : PathEntry) : Bool :=
  if ! bboxContains containerEl.bbox containedEl.bbox then false
  else
    decide ((28 : ℚ) / 5 ≤
      (((List.range 8).filter (fun i =>
        isPointInShape pointFill containerEl
          (containedEl.bbox.x + containedEl.bbox.width * (i + 1) / 9)
          (containedEl.bbox.y + containedEl.bbox.height / 2))).length : ℚ))

/-- The pairwise edge rule of `buildContainmentGraph`
(`white-classifier.js`): bounding-box containment, then the area-ratio
guard (`outerArea > 0 && innerArea / outerArea > 0.95` skips the pair), then
the sample-point containment check. -/
def containmentEdge (pointFill : Option (PathEntry → ℚ → ℚ → Bool))
    (outer inner : PathEntry) : Bool :=
  bboxContains outer.bbox inner.bbox &&
  ! (decide (0 < outer.bbox.width * outer.bbox.height) &&
     decide ((95 : ℚ) / 100 <
       (inner.bbox.width * inner.bbox.height) /
         (outer.bbox.width * outer.bbox.height))) &&
  isShapeContainedIn pointFill outer inner

/-- A node of the containment graph. -/
structure GraphNode where
  containedBy : List String
  contains : List String
deriving DecidableEq, Repr

/-- `buildContainmentGraph` from `white-classifier.js`.  The source skips
the diagonal by loop index; registry path ids (`p_<zIndex>`) are distinct,
so the skip is modelled by id inequality. -/
def buildContainmentGraph (pointFill : Option (PathEntry → ℚ → ℚ → Bool))
    (paths : List PathEntry) : List (String × GraphNode) :=
  paths.map (fun p =>
    (p.id,
     { containedBy := (paths.filter (fun o =>
         decide (o.id ≠ p.id) && containmentEdge pointFill o p)).map PathEntry.id,
       contains := (paths.filter (fun q =>
         decide (q.id ≠ p.id) && containmentEdge pointFill p q)).map PathEntry.id }))

/-- A recorded edge forces the inner/outer bounding-box area bound when the
outer box has positive area. -/
theorem containmentEdge_ratio (pointFill : Option (PathEntry → ℚ → ℚ → Bool))
    (outer inner : PathEntry) (hedge : containmentEdge pointFill outer inner = true)
    (hpos : 0 < outer.bbox.width * outer.bbox.height) :
    inner.bbox.width * inner.bbox.height ≤
      (95 / 100) * (outer.bbox.width * outer.bbox.height) := by
  rw [containmentEdge] at hedge
  simp only [Bool.and_eq_true, Bool.not_eq_true', Bool.and_eq_false_iff,
    decide_eq_false_iff_not, decide_eq_true_eq] at hedge
  rcases hedge.1.2 with h | h
  · exact absurd hpos h
  · have hle : (inner.bbox.width * inner.bbox.height) /
        (outer.bbox.width * outer.bbox.height) ≤ 95 / 100 := le_of_not_lt h
    calc inner.bbox.width * inner.bbox.height
        = (inner.bbox.width * inner.bbox.height) /
            (outer.bbox.width * outer.bbox.height) *
          (outer.bbox.width * outer.bbox.height) := by
          field_simp
      _ ≤ 95 / 100 * (outer.bbox.width * outer.bbox.height) := by
          exact mul_le_mul_of_nonneg_right hle (le_of_lt hpos)

/-- No edge is recorded between two paths with equal bounding boxes of
positive area. -/
theorem containmentEdge_equal_bbox (pointFill : Option (PathEntry → ℚ → ℚ → Bool))
    (outer inner : PathEntry) (heq : outer.bbox = inner.bbox)
    (hpos : 0 < outer.bbox.width * outer.bbox.height) :
    containmentEdge pointFill outer inner = false := by
  by_contra h
  have hedge : containmentEdge pointFill outer inner = true := by
    revert h
    cases containmentEdge pointFill outer inner <;> simp
  have := containmentEdge_ratio pointFill outer inner hedge hpos
  rw [← heq] at this
  nlinarith

/-- Claim C7 (as amended): in the containment graph of any registered path
list with distinct ids, no edge links two paths with equal bounding boxes of
positive area, and more generally every recorded edge `(outer, inner)` satisfies
`innerArea ≤ 0.95 · outerArea` whenever the outer box has positive area —
for any behaviour of the point-in-fill capability. -/
theorem c7_containment_exclusion (pointFill : Option (PathEntry → ℚ → ℚ → Bool))
    (paths : List PathEntry) (hnd : (paths.map PathEntry.id).Nodup) :
    (∀ outer ∈ paths, ∀ inner ∈ paths, outer.bbox = inner.bbox →
      0 < outer.bbox.width * outer.bbox.height →
      ∀ node, (outer.id, node) ∈ buildContainmentGraph pointFill paths →
        inner.id ∉ node.contains) ∧
    (∀ outer ∈ paths, ∀ node, (outer.id, node) ∈ buildContainmentGraph pointFill paths →
      ∀ innerId ∈ node.contains, ∃ q ∈ paths, q.id = innerId ∧
        (0 < outer.bbox.width * outer.bbox.height →
          q.bbox.width * q.bbox.height ≤
            (95 / 100) * (outer.bbox.width * outer.bbox.height))) := by
  have hinj : ∀ x ∈ paths, ∀ y ∈ paths, x.id = y.id → x = y :=
    List.inj_on_of_nodup_map hnd
  have hnode : ∀ outer ∈ paths, ∀ node,
      (outer.id, node) ∈ buildContainmentGraph pointFill paths →
      node.contains = (paths.filter (fun q =>
        decide (q.id ≠ outer.id) && containmentEdge pointFill outer q)).map PathEntry.id := by
    intro outer houter node hmem
    rw [buildContainmentGraph, List.mem_map] at hmem
    obtain ⟨p, hp, hpe⟩ := hmem
    have hid : p.id = outer.id := congrArg Prod.fst hpe
    have hpo : p = outer := hinj p hp outer houter hid
    subst hpo
    have := congrArg Prod.snd hpe
    simp only at this
    rw [← this]
  constructor
  · intro outer houter inner hinner heq hpos node hmem hcont
    rw [hnode outer houter node hmem, List.mem_map] at hcont
    obtain ⟨q, hq, hqid⟩ := hcont
    rw [List.mem_filter] at hq
    have hedge : containmentEdge pointFill outer q = true := by
      have h2 := hq.2
      simp only [Bool.and_eq_true] at h2
      exact h2.2
    have hqi : q = inner := hinj q hq.1 inner hinner hqid
    subst hqi
    rw [containmentEdge_equal_bbox pointFill outer q heq hpos] at hedge
    cases hedge
  · intro outer houter node hmem innerId hcont
    rw [hnode outer houter node hmem, List.mem_map] at hcont
    obtain ⟨q, hq, hqid⟩ := hcont
    rw [List.mem_filter] at hq
    have hedge : containmentEdge pointFill outer q = true := by
      have h2 := hq.2
      simp only [Bool.and_eq_true] at h2
      exact h2.2
    exact ⟨q, hq.1, hqid, containmentEdge_ratio pointFill outer q hedge⟩

/-- Two concrete entries with the same positive-area bounding box. -/
def twinEntry (n : ℕ) : PathEntry :=
  { id := "p_" ++ toString n, originalId := "t" ++ toString n,
    bbox := ⟨10, 10, 30, 30⟩, area := 900, centroid := ⟨25, 25⟩,
    perimeter := 120, pointHash := 0,
    fillPaint := rawSolidRed.toPaint, strokePaint := rawSolidBlue.toPaint,
    fillRule := "nonzero", zIndex := n, compoundParent := Option.none,
    subpathIndex := Option.none }

set_option maxRecDepth 4000 in
/-- Witness for C7: with an oracle that answers `true` everywhere (the most
permissive point test) and two same-box entries, the hypotheses hold and the
graph records no edge between them. -/
theorem c7_containment_exclusion_witness :
    (([twinEntry 0, twinEntry 1].map PathEntry.id).Nodup ∧
      (twinEntry 0).bbox = (twinEntry 1).bbox ∧
      0 < (twinEntry 0).bbox.width * (twinEntry 0).bbox.height ∧
      ("p_0", ({ containedBy := [], contains := [] } : GraphNode)) ∈
        buildContainmentGraph (some (fun _ _ _ => true)) [twinEntry 0, twinEntry 1]) ∧
    "p_1" ∉ (({ containedBy := [], contains := [] } : GraphNode)).contains := by
  refine ⟨⟨?_, ?_, ?_, ?_⟩, ?_⟩
  · with_unfolding_all decide
  · with_unfolding_all decide
  · with_unfolding_all decide
  · with_unfolding_all decide
  · exact (c7_containment_exclusion (some (fun _ _ _ => true))
      [twinEntry 0, twinEntry 1] (by with_unfolding_all decide)).1
      (twinEntry 0) (by with_unfolding_all decide)
      (twinEntry 1) (by with_unfolding_all decide)
      (by with_unfolding_all decide) (by with_unfolding_all decide)
      { containedBy := [], contains := [] } (by with_unfolding_all decide)

/-- `areaRatio` from `geometry-utils.js`: bounding-box area over viewBox
area, 0 when the viewBox area is not positive. -/
def areaRatio (shapeBbox viewBox : BBox) : ℚ :=
  if 0 < viewBox.width * viewBox.height then
    (shapeBbox.width * shapeBbox.height) / (viewBox.width * viewBox.height)
  else 0

/-- The four edge-touch flags of `touchesViewBoxEdge`. -/
structure EdgeTouch where
  top : Bool
  right : Bool
  bottom : Bool
  left : Bool
deriving DecidableEq, Repr

/-- `touchesViewBoxEdge` from `geometry-utils.js`: each viewBox edge within
a margin of 2% of the viewBox width. -/
def touchesViewBoxEdge (shapeBbox viewBox : BBox) : EdgeTouch :=
  { top := decide (shapeBbox.y ≤ viewBox.y + viewBox.width * 2 / 100),
    right := decide (viewBox.x + viewBox.width - viewBox.width * 2 / 100 ≤
      shapeBbox.x + shapeBbox.width),
    bottom := decide (viewBox.y + viewBox.height - viewBox.width * 2 / 100 ≤
      shapeBbox.y + shapeBbox.height),
    left := decide (shapeBbox.x ≤ viewBox.x + viewBox.width * 2 / 100) }

/-- The `any` getter of the edge-touch record. -/
def EdgeTouch.any (e : EdgeTouch) : Bool :=
  e.top || e.right || e.bottom || e.left

/-- The z-index bonus of `detectBackgroundPlate`: full credit up to 2, half
up to 5, reduced otherwise. -/
def zScoreOf (z : ℕ) : ℚ :=
  if z ≤ 2 then 1 else if z ≤ 5 then 1 / 2 else 1 / 5

/-- The edge-touch bonus: 0.25 per touched edge. -/
def edgeScoreOf (e : EdgeTouch) : ℚ :=
  (if e.top then 1 / 4 else 0) + (if e.right then 1 / 4 else 0) +
  (if e.bottom then 1 / 4 else 0) + (if e.left then 1 / 4 else 0)

/-- The white-fill bonus: full for a white-like solid fill, 0.3 otherwise. -/
def colorScoreOf (labOf : RGBA → Lab) (fill : Paint) : ℚ :=
  if fill.type = PaintType.solid ∧ isWhiteLike labOf fill.rgba then 1 else 3 / 10

/-- The detection score of one path in `detectBackgroundPlate`
(`white-classifier.js`).  Paths below the 0.7 area-ratio gate or with a
`none` fill are skipped by the source before scoring and can never beat the
initial `bestScore` of 0; their score is rendered as 0 here. -/
def plateScore (labOf : RGBA → Lab) (path : PathEntry) (viewBox : BBox) : ℚ :=
  if areaRatio path.bbox viewBox < 7 / 10 then 0
  else if path.fillPaint.type = PaintType.none then 0
  else
    areaRatio path.bbox viewBox * (3 / 10) + zScoreOf path.zIndex * (3 / 10) +
    edgeScoreOf (touchesViewBoxEdge path.bbox viewBox) * (2 / 10) +
    colorScoreOf labOf path.fillPaint * (2 / 10)

/-- The winning candidate record of `detectBackgroundPlate`. -/
structure PlateCandidate where
  id : String
  score : ℚ
  ratio : ℚ
  isWhite : Bool
  zIndex : ℕ
deriving DecidableEq, Repr

/-- `detectBackgroundPlate` from `white-classifier.js`: keep the strictly
best-scoring candidate and return it only above the 0.6 bar. -/
def detectBackgroundPlate (labOf : RGBA → Lab) (paths : List PathEntry)
    (viewBox : BBox) : Option PlateCandidate :=
  let best := paths.foldl (fun (acc : ℚ × Option PlateCandidate) path =>
    let s := plateScore labOf path viewBox
    if acc.1 < s then
      (s, some { id := path.id, score := s, ratio := areaRatio path.bbox viewBox,
                 isWhite := (path.fillPaint.type == PaintType.solid) &&
                   isWhiteLike labOf path.fillPaint.rgba,
                 zIndex := path.zIndex })
    else acc) (0, Option.none)
  if 3 / 5 < best.1 then best.2 else Option.none

/-- The z bonus is nonnegative. -/
theorem zScoreOf_nonneg (z : ℕ) : 0 ≤ zScoreOf z := by
  rw [zScoreOf]
  split
  · norm_num
  · split <;> norm_num

/-- The edge bonus is nonnegative. -/
theorem edgeScoreOf_nonneg (e : EdgeTouch) : 0 ≤ edgeScoreOf e := by
  rw [edgeScoreOf]
  have h : ∀ b : Bool, (0 : ℚ) ≤ (if b then 1 / 4 else 0) := by
    intro b
    cases b <;> norm_num
  have h1 := h e.top
  have h2 := h e.right
  have h3 := h e.bottom
  have h4 := h e.left
  linarith

/-- The white-fill bonus is nonnegative. -/
theorem colorScoreOf_nonneg (labOf : RGBA → Lab) (fill : Paint) :
    0 ≤ colorScoreOf labOf fill := by
  rw [colorScoreOf]
  split <;> norm_num

/-- Claim C8: for a path with a non-`none` fill, raising the
bounding-box-to-viewBox area ratio from 0.5 to 0.9 with the fill, z-index
and edge contacts unchanged never decreases the background-plate detection
score (at 0.5 the path is below the 0.7 candidacy gate and scores 0; at 0.9
the weighted sum is nonnegative). -/
theorem c8_plateScore_monotone (labOf : RGBA → Lab) (vb : BBox) (p1 p2 : PathEntry)
    (hfill : p1.fillPaint = p2.fillPaint) (hnone : p1.fillPaint.type ≠ PaintType.none)
    (_hz : p1.zIndex = p2.zIndex)
    (_hedges : touchesViewBoxEdge p1.bbox vb = touchesViewBoxEdge p2.bbox vb)
    (hr1 : areaRatio p1.bbox vb = 1 / 2) (hr2 : areaRatio p2.bbox vb = 9 / 10) :
    plateScore labOf p1 vb ≤ plateScore labOf p2 vb := by
  have hs1 : plateScore labOf p1 vb = 0 := by
    rw [plateScore, hr1, if_pos (by norm_num)]
  have hnone2 : ¬ p2.fillPaint.type = PaintType.none := by
    rw [← hfill]
    exact hnone
  have hs2 : plateScore labOf p2 vb =
      (9 / 10) * (3 / 10) + zScoreOf p2.zIndex * (3 / 10) +
      edgeScoreOf (touchesViewBoxEdge p2.bbox vb) * (2 / 10) +
      colorScoreOf labOf p2.fillPaint * (2 / 10) := by
    rw [plateScore, hr2, if_neg (by norm_num), if_neg hnone2]
  rw [hs1, hs2]
  have h1 := zScoreOf_nonneg p2.zIndex
  have h2 := edgeScoreOf_nonneg (touchesViewBoxEdge p2.bbox vb)
  have h3 := colorScoreOf_nonneg labOf p2.fillPaint
  linarith

/-- A half-width and a 90%-width shape on the 100×100 viewBox: ratios 0.5
and 0.9, same fill, z-index and edge contacts. -/
def halfPlate : PathEntry :=
  { id := "p_0", originalId := "h", bbox := ⟨0, 0, 50, 100⟩, area := 5000,
    centroid := ⟨25, 50⟩, perimeter := 300, pointHash := 0,
    fillPaint := rawSolidRed.toPaint, strokePaint := rawSolidRed.toPaint,
    fillRule := "nonzero", zIndex := 0, compoundParent := Option.none,
    subpathIndex := Option.none }

/-- The widened variant of `halfPlate` (90% of the viewBox width). -/
def widePlate : PathEntry :=
  { halfPlate with bbox := ⟨0, 0, 90, 100⟩, area := 9000, centroid := ⟨45, 50⟩ }

/-- Witness for C8: on the concrete pair, all side conditions hold and the
score at ratio 0.9 is at least the score at ratio 0.5. -/
theorem c8_plateScore_monotone_witness :
    (halfPlate.fillPaint = widePlate.fillPaint ∧
      halfPlate.fillPaint.type ≠ PaintType.none ∧
      halfPlate.zIndex = widePlate.zIndex ∧
      touchesViewBoxEdge halfPlate.bbox vb100 = touchesViewBoxEdge widePlate.bbox vb100 ∧
      areaRatio halfPlate.bbox vb100 = 1 / 2 ∧
      areaRatio widePlate.bbox vb100 = 9 / 10) ∧
    plateScore labAff halfPlate vb100 ≤ plateScore labAff widePlate vb100 := by
  refine ⟨⟨?_, ?_, ?_, ?_, ?_, ?_⟩, ?_⟩
  · with_unfolding_all decide
  · with_unfolding_all decide
  · with_unfolding_all decide
  · with_unfolding_all decide
  · with_unfolding_all decide
  · with_unfolding_all decide
  · exact c8_plateScore_monotone labAff vb100 halfPlate widePlate
      (by with_unfolding_all decide) (by with_unfolding_all decide)
      (by with_unfolding_all decide) (by with_unfolding_all decide)
      (by with_unfolding_all decide) (by with_unfolding_all decide)

/-- A registry input for a degenerate vertical-line path: zero-width
bounding box (area 0) but positive perimeter, hence registered. -/
def lineInput (elId : String) : RawPath :=
  { attrId := some elId,
    geo := { bbox := ⟨10, 10, 0, 30⟩, area := 0, centroid := ⟨10, 25⟩,
             perimeter := 60, pointHash := 0 },
    fill := rawSolidRed }

set_option maxRecDepth 4000 in
/-- Counterexample to claim C7 as stated: two registered paths with *equal*
bounding boxes of zero area (two coincident vertical lines).  The area-ratio
guard only fires when the outer area is positive, and under the bounding-box
fallback of `isPointInShape` (the point-in-fill capability unavailable, a
configuration the Geometry Provider contract explicitly allows) all 8
samples test inside, so the containment graph records an edge between the
two equal-box paths. -/
theorem c7_containment_exclusion_counterexample :
    ((buildRegistries labAff vb100 [lineInput "a", lineInput "b"]).paths.map
        PathEntry.bbox) = [⟨10, 10, 0, 30⟩, ⟨10, 10, 0, 30⟩] ∧
    (buildContainmentGraph Option.none
        (buildRegistries labAff vb100 [lineInput "a", lineInput "b"]).paths).lookup
      "p_0" = some { containedBy := ["p_1"], contains := ["p_1"] } := by
  constructor
  · with_unfolding_all decide
  · with_unfolding_all decide
